import Mathlib

/-!
# Verification development for the SLA support-tree planner
  (src/xs/src/libslic3r/SLA/SLASupportTree.cpp)

A shallow embedding of the planner's data model and operations. The
coordinate scalar is a parameter `K` (a linear ordered field); the C++
`double` computations are modelled over exact field arithmetic. All
definitions are polymorphic so they stay executable; the real-analytic
functions the source calls (`sqrt`, `sin`, `cos`, `acos`, `atan2`, the `PI`
constant) are bundled in an `AMath K` parameter, which theorems instantiate
with the genuine real functions.

External collaborators that the source file only declares (the ray/mesh
interrogator `ray_mesh_intersect`, `normals`, `cluster`, the Eigen
quaternion rotation `FromTwoVectors`, the spatial index) are modelled as an
environment of abstract functions (`Env K`), following spec sections 4.2,
4.3 and 6.
-/

namespace SLA

/-- A 3-vector (the source's `Vec3d`). -/
structure V3 (K : Type) where
  x : K
  y : K
  z : K
deriving DecidableEq, Repr

/-- A 2-vector (the source's `Vec2d`). -/
structure V2 (K : Type) where
  x : K
  y : K
deriving DecidableEq, Repr

variable {K : Type} [LinearOrderedField K]

instance : Add (V3 K) := ⟨fun a b => ⟨a.x + b.x, a.y + b.y, a.z + b.z⟩⟩

instance : Sub (V3 K) := ⟨fun a b => ⟨a.x - b.x, a.y - b.y, a.z - b.z⟩⟩

instance : SMul K (V3 K) := ⟨fun c v => ⟨c * v.x, c * v.y, c * v.z⟩⟩

/-- Dot product of 3-vectors. -/
def dot3 (a b : V3 K) : K := a.x * b.x + a.y * b.y + a.z * b.z

/-- The real-analytic operations the source uses on `double`, abstracted so
every definition stays polymorphic (and executable) in the scalar; theorems
instantiate the bundle with `Real.sqrt`, `Real.sin`, ... -/
structure AMath (K : Type) where
  sqrt : K → K
  sin : K → K
  cos : K → K
  arccos : K → K
  atan2 : K → K → K
  pi : K

/-- `distance(pp1, pp2) = sqrt((pp2-pp1)ᵀ(pp2-pp1))` (source lines 17-24). -/
def dist3 (A : AMath K) (a b : V3 K) : K := A.sqrt (dot3 (b - a) (b - a))

/-- 2D distance between the `x,y` projections of two 3-vectors; the source
forms `Vec2d` pairs and calls the same `distance` template. -/
def dist2 (A : AMath K) (a b : V3 K) : K :=
  A.sqrt ((b.x - a.x) * (b.x - a.x) + (b.y - a.y) * (b.y - a.y))

/-- Eigen's `normalized()`: `v / ‖v‖` (division by a zero norm is modelled by
the field's `1/0 = 0` convention; the source never normalizes a zero
vector on the paths the claims touch). -/
def normalized (A : AMath K) (v : V3 K) : V3 K :=
  (1 / A.sqrt (dot3 v v)) • v

/-- Boolean strict comparison (used to transcribe C++ conditions). -/
def ltB (a b : K) : Bool := decide (a < b)

/-- Boolean non-strict comparison. -/
def leB (a b : K) : Bool := decide (a ≤ b)

/-- `ray_mesh_intersect` returns a `double` that is `+inf` when the ray does
not hit; modelled as `Option K` with `none` standing for `+inf`. -/
abbrev RayDist (K : Type) := Option K

/-- `t > c` on a possibly-infinite ray distance (`inf > c` is true). -/
def rdGt (t : RayDist K) (c : K) : Bool :=
  match t with
  | none => true
  | some v => decide (c < v)

/-- `t >= c` on a possibly-infinite ray distance. -/
def rdGe (t : RayDist K) (c : K) : Bool :=
  match t with
  | none => true
  | some v => decide (c ≤ v)

/-- `t < c` on a possibly-infinite ray distance (`inf < c` is false). -/
def rdLt (t : RayDist K) (c : K) : Bool :=
  match t with
  | none => false
  | some v => decide (v < c)

/-- An indexed triangle list (the collaborator type `Contour3D` of
SLABoilerPlate.hpp, which is not among the staged files). Facet entries are
the C++ `coord_t` integers, kept as `ℤ`. -/
structure Contour3D (K : Type) where
  points : List (V3 K)
  indices : List (ℤ × ℤ × ℤ)
deriving DecidableEq

/-- The empty contour. -/
def emptyC : Contour3D K := ⟨[], []⟩

/-- Modelled from the spec: `Contour3D::merge` is declared in the external
boilerplate header; it appends the other contour's points and its facets
re-based by the prior point count (the standard mesh merge the primitive
builders rely on). -/
def Contour3D.merge (a b : Contour3D K) : Contour3D K :=
  ⟨a.points ++ b.points,
   a.indices ++ b.indices.map (fun f =>
     (f.1 + (a.points.length : ℤ), f.2.1 + (a.points.length : ℤ),
      f.2.2 + (a.points.length : ℤ)))⟩

/-- Translate every point of a contour. -/
def Contour3D.shift (c : Contour3D K) (t : V3 K) : Contour3D K :=
  ⟨c.points.map (fun p => p + t), c.indices⟩

variable [FloorRing K]

/-- `sphere(rho, portion, fa)` (source lines 26-116): the stacked-circle
triangulation of the polar-angle portion of a sphere. The `for (double i =
0; i < 2*PI; i += angle)` ring loop is rendered as the exact count
`⌈2π/angle⌉` of multiples of `angle` below `2π`; `size_t` casts of doubles
become `Int.toNat ∘ Int.floor`. The dead trailing `id++` is dropped. -/
def sphere (A : AMath K) (rho : K) (portion : K × K) (fa : K) : Contour3D K :=
  if rho ≤ 1 / 1000000 ∧ -(1 / 1000000) ≤ rho then ⟨[], []⟩ else
  let angle := 2 * A.pi / ((⌊2 * A.pi / fa⌋ : ℤ) : K)
  let ringSize := (⌈2 * A.pi / angle⌉ : ℤ).toNat
  let ring : List K := (List.range ringSize).map (fun k => (k : K) * angle)
  let sbegin := (⌊2 * portion.1 / angle⌋ : ℤ).toNat
  let send := (⌊2 * portion.2 / angle⌋ : ℤ).toNat
  let steps := ring.length
  let increment : K := 1 / (steps : K)
  let cap0 : List (V3 K) :=
    if sbegin = 0 then [⟨0, 0, -rho + increment * (sbegin : K) * 2 * rho⟩] else []
  let id0 := cap0.length
  let z1 := -rho + increment * rho * 2 * ((sbegin : K) + 1)
  let r1 := A.sqrt |rho * rho - z1 * z1|
  let firstRing : List (V3 K) :=
    ring.map (fun θ => ⟨-(r1 * A.sin θ), r1 * A.cos θ, z1⟩)
  let firstFacets : List (ℤ × ℤ × ℤ) :=
    if sbegin = 0 then
      (List.range steps).map (fun i =>
        if i = 0 then ((steps : ℤ), 0, 1)
        else ((id0 + i : ℤ) - 1, 0, (id0 + i : ℤ)))
    else []
  let gens := List.range' (sbegin + 2) ((send - 1) - (sbegin + 2))
  let genRings : List (List (V3 K)) := gens.map (fun s =>
    let z := -rho + increment * (s : K) * 2 * rho
    let r := A.sqrt |rho * rho - z * z|
    ring.map (fun θ => ⟨-(r * A.sin θ), r * A.cos θ, z⟩))
  let genFacets : List (ℤ × ℤ × ℤ) := gens.enum.flatMap (fun ki =>
    let base := id0 + steps + ki.1 * steps
    (List.range steps).flatMap (fun i =>
      let idv : ℤ := (base + i : ℤ)
      let idr : ℤ := idv - (steps : ℤ)
      if i = 0 then
        [(idv - 1, idv, idv + (steps : ℤ) - 1), (idv - 1, idr, idv)]
      else
        [(idr - 1, idr, idv), (idv - 1, idr - 1, idv)]))
  let idLast := id0 + steps + gens.length * steps
  let lastPts : List (V3 K) :=
    if (⌊2 * A.pi / angle⌋ : ℤ).toNat ≤ send then
      [⟨0, 0, -rho + increment * (send : K) * 2 * rho⟩]
    else []
  let lastFacets : List (ℤ × ℤ × ℤ) :=
    if (⌊2 * A.pi / angle⌋ : ℤ).toNat ≤ send then
      (List.range steps).map (fun i =>
        let idr : ℤ := (idLast : ℤ) - (steps : ℤ)
        if i = 0 then ((idLast : ℤ) - 1, idr, (idLast : ℤ))
        else (idr + (i : ℤ) - 1, idr + (i : ℤ), (idLast : ℤ)))
    else []
  ⟨cap0 ++ firstRing ++ genRings.flatMap (fun l => l) ++ lastPts,
   firstFacets ++ genFacets ++ lastFacets⟩

/-- `cylinder(r, h, fa)` (source lines 118-155): an axis-aligned capped
cylinder from `(0,0,0)` to `(0,0,h)`. The two special centre vertices and
the two seam vertices precede the ring loop; each loop step adds one wall
line (two vertices, four facets) and the last line is re-joined to the
first with four closing facets. -/
def cylinder (A : AMath K) (r h fa : K) : Contour3D K :=
  let angle := 2 * A.pi / ((⌊2 * A.pi / fa⌋ : ℤ) : K)
  let n := (⌈2 * A.pi / angle⌉ : ℤ).toNat
  let basePts : List (V3 K) :=
    [⟨0, 0, 0⟩, ⟨0, 0, h⟩,
     ⟨A.sin 0 * r, A.cos 0 * r, 0⟩, ⟨A.sin 0 * r, A.cos 0 * r, h⟩]
  let loopPts : List (V3 K) := (List.range n).flatMap (fun k =>
    let θ := (k : K) * angle
    [⟨-(r * A.sin θ), r * A.cos θ, 0⟩, ⟨-(r * A.sin θ), r * A.cos θ, h⟩])
  let loopFacets : List (ℤ × ℤ × ℤ) := (List.range n).flatMap (fun k =>
    let idv : ℤ := 5 + 2 * (k : ℤ)
    [(0, idv - 1, idv - 3), (idv, 1, idv - 2),
     (idv, idv - 2, idv - 3), (idv, idv - 3, idv - 1)])
  let idF : ℤ := if n = 0 then 3 else 2 * (n : ℤ) + 3
  let closing : List (ℤ × ℤ × ℤ) :=
    [(2, 0, idF - 1), (1, 3, idF), (idF, 3, 2), (idF, 2, idF - 1)]
  ⟨basePts ++ loopPts, loopFacets ++ closing⟩

/-- `Head::Tail` (source lines 168-172): a truncated-cone stub owned by the
head. C++ member defaults: `steps = 45`, `length = 1.6`. -/
structure HTail (K : Type) where
  mesh : Contour3D K
  steps : Nat := 45
  length : K

/-- `Head` (source lines 157-304): a pinhead compound. The geometric fields
mirror the C++ members; `mesh` and `tail.mesh` are the only parts its
methods mutate. -/
structure Head (K : Type) where
  mesh : Contour3D K
  steps : Nat
  dir : V3 K
  tr : V3 K
  r_back_mm : K
  r_pin_mm : K
  width_mm : K
  tail : HTail K

/-- The pinhead compound mesh built by the `Head` constructor (source lines
182-236): two sphere portions split at the tangent angle `phi`, the second
raised by `h`, stitched with a quad strip, and finally translated so the
pin tip sits at the origin. -/
def headMesh (A : AMath K) (r_big r_small width : K) (steps : Nat) : Contour3D K :=
  let detail := 2 * A.pi / (steps : K)
  let h := r_big + r_small + width
  let phi := A.pi / 2 - A.arccos ((r_big - r_small) / h)
  let s1 := sphere A r_big (0, A.pi / 2 + phi) detail
  let s2 := sphere A r_small (A.pi / 2 + phi, A.pi) detail
  let s2 : Contour3D K := ⟨s2.points.map (fun p => ⟨p.x, p.y, p.z + h⟩), s2.indices⟩
  let m := (Contour3D.merge ⟨[], []⟩ s1).merge s2
  let n1 := s1.points.length
  let stitch : List (ℤ × ℤ × ℤ) := (List.range (steps - 1)).flatMap (fun k =>
    let i1s1 : ℤ := (n1 - steps : ℤ) + (k : ℤ)
    let i1s2 : ℤ := (n1 : ℤ) + (k : ℤ)
    [(i1s1, i1s1 + 1, i1s2 + 1), (i1s1, i1s2 + 1, i1s2)])
  let finA : ℤ × ℤ × ℤ :=
    ((n1 : ℤ) + (steps : ℤ) - 1, (n1 : ℤ) - 1, (n1 - steps : ℤ))
  let finB : ℤ × ℤ × ℤ :=
    ((n1 : ℤ), (n1 : ℤ) + (steps : ℤ) - 1, (n1 - steps : ℤ))
  let m : Contour3D K := ⟨m.points, m.indices ++ stitch ++ [finA, finB]⟩
  ⟨m.points.map (fun p => ⟨p.x, p.y, p.z - (h + r_small)⟩), m.indices⟩

/-- The `Head` constructor (source lines 174-237). `tail.length` is set to
`0.8 * width_mm`; the tail mesh starts empty. -/
def mkHead (A : AMath K) (r_big r_small length : K) (dir tr : V3 K)
    (steps : Nat := 45) : Head K :=
  { mesh := headMesh A r_big r_small length steps
    steps := steps
    dir := dir
    tr := tr
    r_back_mm := r_big
    r_pin_mm := r_small
    width_mm := length
    tail := { mesh := ⟨[], []⟩, steps := 45, length := 8 / 10 * length } }

/-- `Head::transform` (source lines 239-250): bakes the rotation aligning
`(0,0,-1)` onto `dir` plus the translation by `tr` into the mesh points.
The quaternion `FromTwoVectors((0,0,-1), dir)` is an external Eigen call,
passed in as `rot`. Only `mesh` changes. -/
def Head.transform (rot : V3 K → V3 K) (h : Head K) : Head K :=
  { h with mesh := ⟨h.mesh.points.map (fun p => rot p + h.tr), h.mesh.indices⟩ }

/-- `Head::fullwidth` (source lines 252-254). -/
def Head.fullwidth (h : Head K) : K :=
  2 * h.r_pin_mm + h.width_mm + 2 * h.r_back_mm

/-- `Head::junction_point` (source lines 256-258). -/
def Head.junction_point (h : Head K) : V3 K :=
  h.tr + (2 * h.r_pin_mm + h.width_mm + h.r_back_mm) • h.dir

/-- `Head::request_pillar_radius` (source lines 260-262). -/
def Head.request_pillar_radius (h : Head K) (radius : K) : K :=
  if 0 < radius ∧ radius < h.r_back_mm then radius else h.r_back_mm * (65 / 100)

/-- The point/facet lists `Head::add_tail` pushes into the tail contour
(source lines 269-302): an upper ring of radius `0.9 * r_back` at the back
of the head and a lower ring of the requested pillar radius, `tlen` below,
stitched as a quad strip. -/
def tailContour (A : AMath K) (h : Head K) (tlen radius : K) : Contour3D K :=
  let hh := h.r_back_mm + 2 * h.r_pin_mm + h.width_mm
  let c := h.tr + hh • h.dir
  let r := h.r_back_mm * (9 / 10)
  let r_low := h.request_pillar_radius radius
  let a := 2 * A.pi / (h.steps : K)
  let ring1 : List (V3 K) := (List.range h.steps).map (fun i =>
    ⟨c.x + r * A.cos ((i : K) * a), c.y + r * A.sin ((i : K) * a), c.z⟩)
  let ring2 : List (V3 K) := (List.range h.steps).map (fun i =>
    ⟨c.x + r_low * A.cos ((i : K) * a), c.y + r_low * A.sin ((i : K) * a),
     c.z - tlen⟩)
  let offs := h.steps
  let quads : List (ℤ × ℤ × ℤ) := (List.range (h.steps - 1)).flatMap (fun i =>
    [((i : ℤ), (i + offs : ℤ), (offs + i + 1 : ℤ)),
     ((i : ℤ), (offs + i + 1 : ℤ), (i + 1 : ℤ))])
  let last := h.steps - 1
  ⟨ring1 ++ ring2,
   quads ++ [(0, (last : ℤ), (offs : ℤ)), ((last : ℤ), (offs + last : ℤ), (offs : ℤ))]⟩

/-- `Head::add_tail(length = -1, radius = -1)` (source lines 264-303):
updates `tail.length` when a positive length is given and appends the tail
contour to `tail.mesh`. Nothing else changes. -/
def Head.add_tail (A : AMath K) (h : Head K)
    (length : K := -1) (radius : K := -1) : Head K :=
  let tlen := if 0 < length then length else h.tail.length
  let c := tailContour A h tlen radius
  { h with tail := { h.tail with
      length := tlen
      mesh := ⟨h.tail.mesh.points ++ c.points, h.tail.mesh.indices ++ c.indices⟩ } }

/-- A `Head` with the C++ member defaults (stands for an out-of-range
`std::vector` access, which never happens on the runs the theorems treat). -/
def junkHead : Head K :=
  { mesh := ⟨[], []⟩, steps := 45, dir := ⟨0, 0, -1⟩, tr := ⟨0, 0, 0⟩
    r_back_mm := 1, r_pin_mm := 1 / 2, width_mm := 2
    tail := { mesh := ⟨[], []⟩, steps := 45, length := 16 / 10 } }

/-- `Pillar` (source lines 306-393). `headref` is the C++
`reference_wrapper<const Head>`; since a head is transformed and tailed at
most once and always before its pillar exists, the reference is modelled as
a snapshot of the head at construction time. -/
structure Pillar (K : Type) where
  mesh : Contour3D K
  base : Contour3D K
  r : K
  steps : Nat
  endpoint : V3 K
  headref : Head K

/-- The `Pillar` constructor (source lines 314-345): copies the lower ring
of the head's tail and drops a copy of it to the endpoint's height, joined
by a quad strip. -/
def mkPillar (head : Head K) (endp : V3 K) (radius : K := 1) : Pillar K :=
  let steps := head.steps
  let lower := head.tail.mesh.points.drop steps
  let pts := lower ++ lower.map (fun s => (⟨s.x, s.y, endp.z⟩ : V3 K))
  let offs := steps
  let quads : List (ℤ × ℤ × ℤ) := (List.range (steps - 1)).flatMap (fun i =>
    [((i : ℤ), (i + offs : ℤ), (offs + i + 1 : ℤ)),
     ((i : ℤ), (offs + i + 1 : ℤ), (i + 1 : ℤ))])
  let last := steps - 1
  { mesh := ⟨pts, quads ++ [(0, (last : ℤ), (offs : ℤ)),
      ((last : ℤ), (offs + last : ℤ), (offs : ℤ))]⟩
    base := ⟨[], []⟩
    r := head.request_pillar_radius radius
    steps := steps
    endpoint := endp
    headref := head }

/-- `Pillar::add_base(height = 3, radius = 2)` (source lines 347-390): a
flared polygonal frustum with two centre vertices closing the caps,
appended to the pillar's `base` contour. Returns the pillar unchanged when
`height ≤ 0`. -/
def Pillar.add_base (A : AMath K) (p : Pillar K)
    (height : K := 3) (radius : K := 2) : Pillar K :=
  if height ≤ 0 then p else
  let radius := if radius < p.r then p.r else radius
  let a := 2 * A.pi / (p.steps : K)
  let z := p.endpoint.z + height
  let ring1 : List (V3 K) := (List.range p.steps).map (fun i =>
    ⟨p.endpoint.x + p.r * A.cos ((i : K) * a),
     p.endpoint.y + p.r * A.sin ((i : K) * a), z⟩)
  let ring2 : List (V3 K) := (List.range p.steps).map (fun i =>
    ⟨p.endpoint.x + radius * A.cos ((i : K) * a),
     p.endpoint.y + radius * A.sin ((i : K) * a), z - height⟩)
  let ep : V3 K := ⟨p.endpoint.x, p.endpoint.y, p.endpoint.z + height⟩
  let allPts := p.base.points ++ ring1 ++ ring2 ++ [p.endpoint, ep]
  let hcenter : ℤ := (allPts.length : ℤ) - 1
  let lcenter : ℤ := (allPts.length : ℤ) - 2
  let offs := p.steps
  let quads : List (ℤ × ℤ × ℤ) := (List.range (p.steps - 1)).flatMap (fun i =>
    [((i : ℤ), (i + offs : ℤ), (offs + i + 1 : ℤ)),
     ((i : ℤ), (offs + i + 1 : ℤ), (i + 1 : ℤ)),
     ((i : ℤ), (i + 1 : ℤ), hcenter),
     (lcenter, (offs + i + 1 : ℤ), (offs + i : ℤ))])
  let last := p.steps - 1
  { p with base := ⟨allPts,
      p.base.indices ++ quads ++
      [(0, (last : ℤ), (offs : ℤ)), ((last : ℤ), (offs + last : ℤ), (offs : ℤ)),
       (hcenter, (last : ℤ), 0), ((offs : ℤ), (offs + last : ℤ), lcenter)]⟩ }

/-- `Pillar::has_base` (source line 392). -/
def Pillar.has_base (p : Pillar K) : Prop := p.base.points ≠ []

/-- A default pillar, for out-of-range container reads. -/
def junkPillar : Pillar K :=
  { mesh := ⟨[], []⟩, base := ⟨[], []⟩, r := 1, steps := 0
    endpoint := ⟨0, 0, 0⟩, headref := junkHead }

/-- `Junction` (source lines 395-407): a sphere of radius `r` at `pos`. -/
structure Junction (K : Type) where
  mesh : Contour3D K
  r : K
  steps : Nat
  pos : V3 K

/-- The `Junction` constructor (source lines 401-406). -/
def mkJunction (A : AMath K) (tr : V3 K) (r_mm : K) (stepnum : Nat := 45) :
    Junction K :=
  { mesh := (sphere A r_mm (0, A.pi) (2 * A.pi / (stepnum : K))).shift tr
    r := r_mm
    steps := stepnum
    pos := tr }

/-- A default junction, for out-of-range container reads. -/
def junkJunction : Junction K := { mesh := ⟨[], []⟩, r := 1, steps := 45, pos := ⟨0, 0, 0⟩ }

/-- `Bridge` (source lines 409-437): a connecting cylinder. Only the
junction-junction constructor builds geometry. -/
structure Bridge (K : Type) where
  mesh : Contour3D K
  r : K

/-- The junction-junction `Bridge` constructor (source lines 413-424):
a cylinder of radius `r_mm` and height `distance(j2.pos, j1.pos)` rotated by
`FromTwoVectors((0,0,1), dir)` (the external Eigen rotation, passed as
`rotFT`) and translated to `j1.pos`. -/
def mkBridgeJJ (rotFT : V3 K → V3 K → V3 K → V3 K) (A : AMath K)
    (j1 j2 : Junction K) (r_mm : K := 8 / 10) : Bridge K :=
  let dir := normalized A (j2.pos - j1.pos)
  let d := dist3 A j2.pos j1.pos
  let c := cylinder A r_mm d (2 * A.pi / 45)
  { mesh := ⟨c.points.map (fun p => rotFT ⟨0, 0, 1⟩ dir p + j1.pos), c.indices⟩
    r := r_mm }

/-- The head-junction `Bridge` constructor (source lines 426-433): its whole
body is commented out in the source, so the mesh member stays default
(empty) and only `r` is stored. -/
def mkBridgeHJ (_h : Head K) (_j2 : Junction K) (r_mm : K := 8 / 10) : Bridge K :=
  { mesh := ⟨[], []⟩, r := r_mm }

/-- The junction-pillar `Bridge` constructor (source line 435): an empty
body, so the mesh stays empty and `r` keeps its member default `0.8`. -/
def mkBridgeJP (_j : Junction K) (_cl : Pillar K) : Bridge K :=
  { mesh := ⟨[], []⟩, r := 8 / 10 }

/-- `SLASupportTree::Impl` (source lines 562-594): the append-only
containers of the support-tree model. -/
structure Impl (K : Type) where
  heads : List (Head K) := []
  pillars : List (Pillar K) := []
  junctions : List (Junction K) := []
  bridges : List (Bridge K) := []

/-- `Impl::add_head`: append. -/
def Impl.addHead (m : Impl K) (h : Head K) : Impl K :=
  { m with heads := m.heads ++ [h] }

/-- `Impl::add_pillar`: append. -/
def Impl.addPillar (m : Impl K) (p : Pillar K) : Impl K :=
  { m with pillars := m.pillars ++ [p] }

/-- `Impl::add_junction`: append. -/
def Impl.addJunction (m : Impl K) (j : Junction K) : Impl K :=
  { m with junctions := m.junctions ++ [j] }

/-- `Impl::add_bridge`: append. -/
def Impl.addBridge (m : Impl K) (b : Bridge K) : Impl K :=
  { m with bridges := m.bridges ++ [b] }

/-- In-place mutation of `result.head(idx)` (the C++ code mutates the head
through the returned reference). -/
def Impl.modifyHead (m : Impl K) (idx : Nat) (f : Head K → Head K) : Impl K :=
  { m with heads := m.heads.set idx (f (m.heads.getD idx junkHead)) }

/-- `D_SP` (source line 471): the support-point deduplication distance. -/
def D_SP : K := 1 / 10

/-- The index pairs `(i, j)` with `i < j < n`, in the order the
`std::next_permutation` bitmask walk of `cluster_centroid` visits
combinations; the accumulated sums do not depend on the order. -/
def ccPairs (n : Nat) : List (Nat × Nat) :=
  (List.range n).flatMap (fun i =>
    ((List.range n).filter (fun j => i < j)).map (fun j => (i, j)))

/-- `std::min_element` over the values `f 0, ..., f (n-1)`: the first index
attaining the minimum (a later index replaces the best only when strictly
smaller). -/
def argminFirst (f : Nat → K) (n : Nat) : Nat :=
  ((List.range n).drop 1).foldl (fun best i => if f i < f best then i else best) 0

/-- One combination of the `cluster_centroid` bitmask walk: the distance of
the pair is added to both members' accumulators. -/
def ccStep {P : Type} (clust : List Nat) (pointfn : Nat → P) (df : P → P → K)
    (av : Nat → K) (ij : Nat × Nat) : Nat → K :=
  let d := df (pointfn (clust.getD ij.1 0)) (pointfn (clust.getD ij.2 0))
  fun k => if k = ij.1 ∨ k = ij.2 then av k + d else av k

/-- `cluster_centroid` (source lines 596-639): `-1`, `0`, `0` for sizes 0,
1, 2; otherwise for each unordered pair of members the distance is added to
both members' accumulators (the `avgs` vector, modelled as a function from
index to value), every accumulator is divided by the cluster size, and the
first index with the minimal average is returned. -/
def cluster_centroid {P : Type} (clust : List Nat) (pointfn : Nat → P)
    (df : P → P → K) : ℤ :=
  if clust.length = 0 then -1
  else if clust.length ≤ 2 then 0
  else
    let n := clust.length
    let avgs : Nat → K := (ccPairs n).foldl (ccStep clust pointfn df) (fun _ => 0)
    let avgs2 : Nat → K := fun k => avgs k / (n : K)
    (argminFirst avgs2 n : ℤ)

/-- The colinearity tolerance `ERR = 1e-6` of `pts_convex_hull`. -/
def hullERR : K := 1 / 1000000

/-- The `orientation` lambda of `pts_convex_hull` (source lines 655-662):
0 = colinear, 1 = clockwise, 2 = counterclockwise. -/
def orientation (p q r : V2 K) : Nat :=
  let val := (q.y - p.y) * (r.x - q.x) - (q.x - p.x) * (r.y - q.y)
  if |val| < hullERR then 0 else if hullERR < val then 1 else 2

/-- One gift-wrapping step: starting from `q = (p+1) % n`, scan all points
and keep the most counterclockwise candidate (source lines 697-703). -/
def hullNextQ (points : List (V2 K)) (n p : Nat) : Nat :=
  (List.range n).foldl (fun q i =>
    if orientation (points.getD p ⟨0, 0⟩) (points.getD i ⟨0, 0⟩)
        (points.getD q ⟨0, 0⟩) = 2 then i else q)
    ((p + 1) % n)

/-- The gift-wrapping do-while loop of `pts_convex_hull` (source lines
686-710), fuelled: the C++ loop does not terminate on degenerate inputs, so
the model stops after `fuel` pushes (never reached with `fuel = n + 1` on
the runs treated here). -/
def hullLoop (points : List (V2 K)) (n l : Nat) : Nat → List Nat → Nat → List Nat
  | _, acc, 0 => acc
  | p, acc, fuel + 1 =>
    let acc := acc ++ [p]
    let q := hullNextQ points n p
    if q = l then acc else hullLoop points n l q acc fuel

/-- `pts_convex_hull` (source lines 647-713): for fewer than three input
indices the input is returned unchanged; otherwise the gift-wrapping hull
of the *positions* `0..n-1` into the input list (as the source pushes the
loop variable `p`, not `inpts[p]`), counterclockwise from the leftmost
point (ties broken by lowest y). -/
def pts_convex_hull (inpts : List Nat) (pfn : Nat → V2 K) : List Nat :=
  if inpts.length < 3 then inpts else
  let n := inpts.length
  let points := inpts.map pfn
  let l := ((List.range n).drop 1).foldl (fun l i =>
    if |(points.getD i ⟨0, 0⟩).x - (points.getD l ⟨0, 0⟩).x| < hullERR then
      (if (points.getD i ⟨0, 0⟩).y < (points.getD l ⟨0, 0⟩).y then i else l)
    else if (points.getD i ⟨0, 0⟩).x < (points.getD l ⟨0, 0⟩).x then i else l) 0
  hullLoop points n l l [] (n + 1)

/-- Insertion step for `sortNat`. -/
def sortInsert (x : Nat) : List Nat → List Nat
  | [] => [x]
  | y :: ys => if x ≤ y then x :: y :: ys else y :: sortInsert x ys

/-- The external `std::sort` on a vector of distinct indices: the sorted
arrangement (insertion sort; `std::sort` promises exactly a sorted
permutation, which is unique here). -/
def sortNat (l : List Nat) : List Nat := l.foldr sortInsert []

/-- A `ModelObject` as `support_points`/`to_eigenmesh` consume it (Model.hpp
is an external collaborator, spec section 6): a list of per-instance world
transforms and the object's support points in local coordinates. -/
structure MObject (K : Type) where
  instances : List (V3 K → V3 K)
  sla_support_points : List (V3 K)

/-- The host `Model`: a list of objects. -/
structure MModel (K : Type) where
  objects : List (MObject K)

/-- The sequence of `(row, value)` writes `support_points` performs (source
lines 524-540): for every object and every instance the row counter `i` is
re-initialised to 0 before the support-point loop, exactly as the C++
declares `int i = 0` inside the instance loop. -/
def support_points_writes (m : MModel K) : List (Nat × V3 K) :=
  m.objects.flatMap (fun o =>
    o.instances.flatMap (fun inst =>
      o.sla_support_points.enum.map (fun ip => (ip.1, inst ip.2))))

/-- `support_points` (source lines 524-540): an Eigen matrix with
`Σ instances × points` rows is allocated uninitialised (modelled as `none`
entries) and the writes are replayed in program order. -/
def support_points (m : MModel K) : List (Option (V3 K)) :=
  let sum := (m.objects.map (fun o =>
    o.instances.length * o.sla_support_points.length)).sum
  (support_points_writes m).foldl (fun ret iv => ret.set iv.1 (some iv.2))
    (List.replicate sum none)

/-- `SupportConfig` (declared in the header; spec section 6 lists the
recognised options). -/
structure SupportConfig (K : Type) where
  head_front_radius_mm : K
  head_back_radius_mm : K
  head_width_mm : K
  pillar_radius_mm : K
  base_radius_mm : K
  base_height_mm : K
  tilt : K
  junction_distance : K

/-- Modelled from the spec: the external collaborators the source only
declares (spec sections 4.2, 4.3, 6). `intersect` is `ray_mesh_intersect`
against the world mesh (`none` = no hit / `+inf`); `normals` the per-point
face normals; `cluster` the transitive-closure clustering with a maximum
cluster size, whose predicate the call sites build from point distances
(the C++ predicate receives `(point, id)` pairs but every call site reads
only the points); `rot` the Eigen `Quaternion::FromTwoVectors(a, b)`
rotation applied to a vector. -/
structure Env (K : Type) where
  intersect : V3 K → V3 K → RayDist K
  normals : List (V3 K) → List (V3 K)
  cluster : List (V3 K) → (V3 K → V3 K → Bool) → Nat → List (List Nat)
  rot : V3 K → V3 K → V3 K → V3 K

/-- The per-point loop of `filterfn` (source lines 803-858): spherical
coordinates of the normal, the `polar >= PI/2` gate, saturation of the
polar angle to `3π/4`, the reconstituted normal, and the visibility ray
`t > 2w || isinf(t)` deciding head versus headless. The three row counters
become three appended lists. -/
def filterStep (env : Env K) (A : AMath K) (cfg : SupportConfig K)
    (filt_pts nmls : List (V3 K))
    (acc : List (V3 K) × List (V3 K) × List (V3 K)) (i : Nat) :
    List (V3 K) × List (V3 K) × List (V3 K) :=
  let n := nmls.getD i ⟨0, 0, 0⟩
  let r : K := 1
  let polar := A.arccos (n.z / r)
  let azimuth := A.atan2 n.y n.x
  if A.pi / 2 ≤ polar then
    let polar := max polar (3 * A.pi / 4)
    let nn : V3 K :=
      ⟨A.cos azimuth * A.sin polar, A.sin azimuth * A.sin polar, A.cos polar⟩
    let hp := filt_pts.getD i ⟨0, 0, 0⟩
    let w := cfg.head_width_mm + cfg.head_back_radius_mm +
             2 * cfg.head_front_radius_mm
    let t := env.intersect (hp + (1 / 10 : K) • nn) nn
    if rdGt t (2 * w) then (acc.1 ++ [hp], acc.2.1 ++ [nn], acc.2.2)
    else (acc.1, acc.2.1, acc.2.2 ++ [hp])
  else acc

/-- The whole per-point loop of `filterfn`: `filterStep` folded over the row
indices, starting from three empty rows. -/
def filterLoop (env : Env K) (A : AMath K) (cfg : SupportConfig K)
    (filt_pts nmls : List (V3 K)) :
    List (V3 K) × List (V3 K) × List (V3 K) :=
  (List.range filt_pts.length).foldl (filterStep env A cfg filt_pts nmls)
    ([], [], [])

/-- `filterfn` (source lines 762-859): deduplicate the input points by
clustering under `distance < D_SP` with `max_points = 2` and keeping each
cluster's front point, query the face normals, then run the per-point
loop. Returns `(filtered_points, filtered_normals, head_positions,
headless_positions)`. -/
def filterfn (env : Env K) (A : AMath K) (cfg : SupportConfig K)
    (points : List (V3 K)) :
    List (V3 K) × List (V3 K) × List (V3 K) × List (V3 K) :=
  let aliases := env.cluster points (fun p se => ltB (dist3 A p se) D_SP) 2
  let filt_pts := aliases.map (fun a => points.getD (a.headD 0) ⟨0, 0, 0⟩)
  let nmls := env.normals filt_pts
  let lp := filterLoop env A cfg filt_pts nmls
  (filt_pts, lp.2.1, lp.1, lp.2.2)

/-- `pinheadfn` (source lines 862-883): append one configured `Head` per
filtered position, with the corrected normal as direction and the position
as the pin-tip anchor. Heads are not yet transformed. -/
def pinheadfn (A : AMath K) (cfg : SupportConfig K)
    (head_pos nmls : List (V3 K)) (result : Impl K) : Impl K :=
  (List.range head_pos.length).foldl (fun result i =>
    result.addHead (mkHead A cfg.head_back_radius_mm cfg.head_front_radius_mm
      cfg.head_width_mm (nmls.getD i ⟨0, 0, 0⟩) (head_pos.getD i ⟨0, 0, 0⟩) 45))
    result

/-- One step of the classification scan: cast a ray straight down from head
`i`'s junction point; `isinf` sorts the head into `gndidx`, a finite hit
into `nogndidx`; the distance is recorded either way. -/
def classifyScanStep (env : Env K) (result : Impl K)
    (acc : List Nat × List Nat × List (RayDist K)) (i : Nat) :
    List Nat × List Nat × List (RayDist K) :=
  let head := result.heads.getD i junkHead
  let t := env.intersect head.junction_point ⟨0, 0, -1⟩
  match t with
  | none => (acc.1 ++ [i], acc.2.1, acc.2.2 ++ [none])
  | some v => (acc.1, acc.2.1 ++ [i], acc.2.2 ++ [some v])

/-- The grounded/non-grounded classification scan of `classifyfn` (source
lines 907-919): `(gndidx, nogndidx, gndheight)`. -/
def classifyScan (env : Env K) (head_pos : List (V3 K)) (result : Impl K) :
    List Nat × List Nat × List (RayDist K) :=
  (List.range head_pos.length).foldl (classifyScanStep env result)
    ([], [], [])

/-- The in-place update `head.transform(); head.add_tail();` the CLASSIFY
stage applies to a non-grounded head (source lines 936-937). -/
def classifyHeadUpd (env : Env K) (A : AMath K) (h : Head K) : Head K :=
  (h.transform (env.rot ⟨0, 0, -1⟩ h.dir)).add_tail A

/-- The body run for one non-grounded head (source lines 935-960). -/
def classifyStep (env : Env K) (A : AMath K) (cfg : SupportConfig K)
    (gndheight : List (RayDist K)) (result : Impl K) (idx : Nat) : Impl K :=
  let result := result.modifyHead idx (classifyHeadUpd env A)
  let head := result.heads.getD idx junkHead
  let gh := (gndheight.getD idx none).getD 0
  let headend := head.junction_point
  let base_head := mkHead A cfg.head_back_radius_mm cfg.head_front_radius_mm
    cfg.head_width_mm ⟨0, 0, 1⟩
    ⟨headend.x, headend.y, headend.z - gh - head.r_pin_mm⟩ 45
  let base_head := base_head.transform (env.rot ⟨0, 0, -1⟩ base_head.dir)
  let hl := head.fullwidth - head.r_back_mm
  let cs := mkPillar head ⟨headend.x, headend.y, headend.z - gh + hl⟩
    cfg.pillar_radius_mm
  let cs := { cs with base := base_head.mesh }
  result.addPillar cs

/-- The pillar the CLASSIFY stage appends for a non-grounded head, written
out as a function of the head's pre-stage value (used to characterize the
stage; the head is first transformed and tailed, and the pillar's `base`
member is overwritten with the inverted terminator head's mesh). -/
def classifyExpPillar (env : Env K) (A : AMath K) (cfg : SupportConfig K)
    (gndheight : List (RayDist K)) (h0 : Head K) (idx : Nat) : Pillar K :=
  let head := classifyHeadUpd env A h0
  let gh := (gndheight.getD idx none).getD 0
  let headend := head.junction_point
  let base_head := (mkHead A cfg.head_back_radius_mm cfg.head_front_radius_mm
    cfg.head_width_mm ⟨0, 0, 1⟩
    ⟨headend.x, headend.y, headend.z - gh - head.r_pin_mm⟩ 45).transform
    (env.rot ⟨0, 0, -1⟩ ⟨0, 0, 1⟩)
  { mkPillar head ⟨headend.x, headend.y,
      headend.z - gh + (head.fullwidth - head.r_back_mm)⟩
      cfg.pillar_radius_mm with base := base_head.mesh }

/-- `classifyfn` (source lines 887-961): the classification scan, the 2D
clustering of grounded heads under `distance < 4·base_radius` with
`max_points = 4`, and the immediate processing of every non-grounded head:
transform, add a tail, build the small inverted terminator pinhead
`gh + r_pin` below the junction, and add a pillar down to
`junction.z - gh + (fullwidth - r_back)` whose `base` member is overwritten
with the terminator head's mesh. -/
def classifyfn (env : Env K) (A : AMath K) (cfg : SupportConfig K)
    (head_pos : List (V3 K)) (result : Impl K) :
    List Nat × List Nat × List (RayDist K) × List (List Nat) × Impl K :=
  let scan := classifyScan env head_pos result
  let gndidx := scan.1
  let nogndidx := scan.2.1
  let gndheight := scan.2.2
  let gnd := gndidx.map (fun i => head_pos.getD i ⟨0, 0, 0⟩)
  let d_base := 4 * cfg.base_radius_mm
  let ground_clusters := env.cluster gnd (fun p s => ltB (dist2 A p s) d_base) 4
  let result := nogndidx.foldl (classifyStep env A cfg gndheight) result
  (gndidx, nogndidx, gndheight, ground_clusters, result)

/-- Ghost events recording what `routing_ground_fn` does, for the temporal
claims: junction creations (with the junction's index in the model), the
two kinds of bridge creations (with their endpoint positions), and every
spatial-index query (with the query centre, radius and the returned
junction indices). -/
inductive REvent (K : Type) where
  | junction (id : Nat) (pos : V3 K) (r : K)
  | sideBridge (src dst : V3 K) (r : K)
  | weaveBridge (src dst : V3 K) (r : K)
  | query (pp : V3 K) (d : K) (found : List Nat)
deriving DecidableEq

/-- `result.add_junction(pos, r)` plus its ghost event; returns the created
junction (the C++ reference). -/
def addJunctionT (A : AMath K) (impl : Impl K) (trace : List (REvent K))
    (pos : V3 K) (r : K) : Impl K × List (REvent K) × Junction K :=
  let j := mkJunction A pos r
  (impl.addJunction j, trace ++ [.junction impl.junctions.length pos r], j)

/-- The body run for each non-centroid head of a grounded cluster (source
lines 1003-1050): transform and tail the side head, then either link it to
the main pillar with two junctions and a bridge (when the landing point
`jn` is above ground) or drop a dedicated based pillar. `jh` is the main
head's junction point. -/
def sideHeadStep (env : Env K) (A : AMath K) (cfg : SupportConfig K)
    (gndidx : List Nat) (jh : V3 K) (st : Impl K × List (REvent K)) (c : Nat) :
    Impl K × List (REvent K) :=
  let sIdx := gndidx.getD c 0
  let impl := st.1.modifyHead sIdx (fun h =>
    (h.transform (env.rot ⟨0, 0, -1⟩ h.dir)).add_tail A)
  let trace := st.2
  let sidehead := impl.heads.getD sIdx junkHead
  let r_pillar := sidehead.request_pillar_radius cfg.pillar_radius_mm
  let jstep := sidehead.fullwidth
  let jp0 := sidehead.junction_point
  let jp : V3 K := ⟨jp0.x, jp0.y, jp0.z - jstep⟩
  let d := dist2 A jp jh
  let jn : V3 K := ⟨jh.x, jh.y, jp.z + d * A.sin (-cfg.tilt)⟩
  let hbr := cfg.head_back_radius_mm
  if 0 < jn.z then
    let s1 := addJunctionT A impl trace jp hbr
    let impl := s1.1.addPillar (mkPillar sidehead jp cfg.pillar_radius_mm)
    let s2 := addJunctionT A impl s1.2.1 jn hbr
    let impl := s2.1.addBridge (mkBridgeJJ env.rot A s1.2.2 s2.2.2 r_pillar)
    (impl, s2.2.1 ++ [.sideBridge jp jn r_pillar])
  else
    let sidecs := (mkPillar sidehead ⟨jp.x, jp.y, 0⟩ cfg.pillar_radius_mm).add_base
      A cfg.base_height_mm cfg.base_radius_mm
    (impl.addPillar sidecs, trace)

/-- The per-cluster body of `routing_ground_fn` (source lines 977-1051):
elect the centroid by minimal total 2D distance, tail and transform its
head, drop the main based pillar to the ground, then process the remaining
cluster members with `sideHeadStep`. Also accumulates the centroid list for
ring weaving. -/
def sideCluster (env : Env K) (A : AMath K) (cfg : SupportConfig K)
    (gndidx : List Nat) (gnd_head_pt : Nat → V3 K)
    (st : Impl K × List (REvent K) × List Nat) (cl : List Nat) :
    Impl K × List (REvent K) × List Nat :=
  let cidx := (cluster_centroid cl gnd_head_pt (fun p1 p2 => dist2 A p1 p2)).toNat
  let cent := cl.getD cidx 0
  let hIdx := gndidx.getD cent 0
  let impl := st.1.modifyHead hIdx (fun h =>
    (h.add_tail A).transform (env.rot ⟨0, 0, -1⟩ h.dir))
  let head := impl.heads.getD hIdx junkHead
  let startpoint := head.junction_point
  let endpoint : V3 K := ⟨startpoint.x, startpoint.y, 0⟩
  let cs := (mkPillar head endpoint cfg.pillar_radius_mm).add_base A
    cfg.base_height_mm cfg.base_radius_mm
  let impl := cs |> impl.addPillar
  let out := (cl.eraseIdx cidx).foldl (sideHeadStep env A cfg gndidx startpoint)
    (impl, st.2.1)
  (out.1, out.2, st.2.2 ++ [cent])

/-- The spatial index as `routing_ground_fn` fills it once before weaving
(source lines 1059-1063): every junction existing at that point, keyed by
its `(x, y, 0)` projection and its container index. -/
def buildJIndex (impl : Impl K) : List (V3 K × Nat) :=
  impl.junctions.enum.map (fun ij => (⟨ij.2.pos.x, ij.2.pos.y, 0⟩, ij.1))

/-- The inner weaving while-loop (source lines 1129-1141), fuelled because
the C++ loop diverges for non-positive tilt: as long as both pillars still
reach below the current junction candidates, create the junction pair and
bridge when the previously computed clearance `chkd` is at least
`pillar_dist` and the next head starts above `ej`, then swap ends, step
`ej` down the tilt and re-cast. -/
def weaveLoop (env : Env K) (A : AMath K) (cfg : SupportConfig K)
    (nEndZ pEndZ nstartz pd prad : K) :
    V3 K → V3 K → RayDist K → Impl K × List (REvent K) → Nat →
    Impl K × List (REvent K)
  | _, _, _, st, 0 => st
  | sj, ej, chkd, st, fuel + 1 =>
    if nEndZ < ej.z ∧ pEndZ < sj.z then
      let st :=
        if rdGe chkd pd ∧ ej.z < nstartz then
          let s1 := addJunctionT A st.1 st.2 sj cfg.head_back_radius_mm
          let s2 := addJunctionT A s1.1 s1.2.1 ej cfg.head_back_radius_mm
          (s2.1.addBridge (mkBridgeJJ env.rot A s1.2.2 s2.2.2 prad),
           s2.2.1 ++ [.weaveBridge sj ej prad])
        else st
      let sj2 := ej
      let ej2 : V3 K := ⟨sj.x, sj.y, ej.z + pd * A.sin (-cfg.tilt)⟩
      let chkd2 := env.intersect sj2 (normalized A (ej2 - sj2))
      weaveLoop env A cfg nEndZ pEndZ nstartz pd prad sj2 ej2 chkd2 st fuel
    else st

/-- One ring edge `(cur, next)` of the weaving loop (source lines
1081-1141): query the junction index within `2·r` of the current pillar's
footprint, pick the start junction (the query's "highest", or the head's
junction point when none), aim `ej` at the next pillar down the tilt, cast
the clearance ray and run the inner loop. -/
def edgeStep (env : Env K) (A : AMath K) (cfg : SupportConfig K)
    (jindex : List (V3 K × Nat)) (fuel : Nat)
    (st : Impl K × List (REvent K)) (e : Nat × Nat) :
    Impl K × List (REvent K) :=
  let pillar := st.1.pillars.getD e.1 junkPillar
  let nextpillar := st.1.pillars.getD e.2 junkPillar
  let d := 2 * pillar.r
  let pp : V3 K := ⟨pillar.endpoint.x, pillar.endpoint.y, 0⟩
  let juncs := jindex.filter (fun se => ltB (dist3 A pp se.1) d)
  let trace := st.2 ++ [.query pp d (juncs.map (fun se => se.2))]
  let sj := match juncs with
    | [] => pillar.headref.junction_point
    | j0 :: rest =>
      (st.1.junctions.getD
        (rest.foldl (fun best se => if best.1.z < se.1.z then se else best) j0).2
        junkJunction).pos
  let ej0 := nextpillar.endpoint
  let pd := dist2 A sj ej0
  let ej : V3 K := ⟨ej0.x, ej0.y, sj.z + pd * A.sin (-cfg.tilt)⟩
  let chkd := env.intersect sj (normalized A (ej - sj))
  let nstartz := nextpillar.headref.junction_point.z
  weaveLoop env A cfg nextpillar.endpoint.z pillar.endpoint.z nstartz pd
    pillar.r sj ej chkd (st.1, trace) fuel

/-- The outer concentric-ring loop (source lines 1065-1150), fuelled (the
C++ loop diverges when the hull positions miss the remaining values): sort
the remaining centroids, take their 2D convex hull as the current ring,
weave every consecutive edge (the last-to-first edge is not produced), then
remove the ring and recurse inward. -/
def remLoop (env : Env K) (A : AMath K) (cfg : SupportConfig K)
    (jindex : List (V3 K × Nat)) (gnd_head_pt : Nat → V3 K) :
    Impl K × List (REvent K) → List Nat → Nat → Impl K × List (REvent K)
  | st, _, 0 => st
  | st, rem, fuel + 1 =>
    if rem.isEmpty then st else
    let rem := sortNat rem
    let ring := pts_convex_hull rem (fun i =>
      let p := gnd_head_pt i
      (⟨p.x, p.y⟩ : V2 K))
    let st := (ring.zip ring.tail).foldl (edgeStep env A cfg jindex fuel) st
    let sring := sortNat ring
    let rem2 := rem.filter (fun x => !(sring.contains x))
    remLoop env A cfg jindex gnd_head_pt st rem2 fuel

/-- `routing_ground_fn` (source lines 963-1255): the per-cluster phase
(centroid pillar, side links), then the junction spatial index is filled
once from the junctions existing at that point, and the concentric-ring
weaving runs on the collected centroids. Returns the model plus the ghost
event trace. -/
def routing_ground_fn (env : Env K) (A : AMath K) (cfg : SupportConfig K)
    (gnd_clusters : List (List Nat)) (gndidx : List Nat)
    (gnd_head_pt : Nat → V3 K) (result : Impl K) (fuel : Nat) :
    Impl K × List (REvent K) :=
  let ph := gnd_clusters.foldl (sideCluster env A cfg gndidx gnd_head_pt)
    (result, [], [])
  let jindex := buildJIndex ph.1
  remLoop env A cfg jindex gnd_head_pt (ph.1, ph.2.1) ph.2.2 fuel

/-- The `Steps` enum (source lines 747-760), in declaration order. -/
inductive Steps where
  | BEGIN
  | FILTER
  | PINHEADS
  | CLASSIFY
  | ROUTING_GROUND
  | ROUTING_NONGROUND
  | HEADLESS
  | DONE
  | HALT
  | ABORT
deriving DecidableEq, Fintype

/-- The controller commands (`Controller::Cmd`). -/
inductive Cmd where
  | START_RESUME
  | PAUSE
  | STOP
  | SYNCH
deriving DecidableEq, Fintype

/-- The underlying enum value of a step (C++ compares the enum with `<`). -/
def ordS : Steps → Nat
  | .BEGIN => 0
  | .FILTER => 1
  | .PINHEADS => 2
  | .CLASSIFY => 3
  | .ROUTING_GROUND => 4
  | .ROUTING_NONGROUND => 5
  | .HEADLESS => 6
  | .DONE => 7
  | .HALT => 8
  | .ABORT => 9

/-- The `stepstate` percentage table (source lines 1321-1332). -/
def stepstate : Steps → Nat
  | .BEGIN => 0
  | .FILTER => 10
  | .PINHEADS => 30
  | .CLASSIFY => 50
  | .ROUTING_GROUND => 60
  | .ROUTING_NONGROUND => 70
  | .HEADLESS => 80
  | .DONE => 100
  | .HALT => 0
  | .ABORT => 0

/-- The driving-loop condition `pc < DONE || pc == HALT` (source line 1366). -/
def loopCond (pc : Steps) : Bool :=
  decide (ordS pc < ordS .DONE) || decide (pc = .HALT)

/-- One call of the `progress` closure (source lines 1307-1363) on program
counter `pc` and saved state `prev`, after `ctl.nextcmd` returned `cmd`:
the next `(pc, prev)` plus the percentage passed to `ctl.statuscb`, or
`none` when no callback is made (the `SYNCH` case falls out of the switch
without one; the label argument is not modelled, claims only concern the
percentages). -/
def progressStep (pc prev : Steps) (cmd : Cmd) : Steps × Steps × Option Nat :=
  match cmd with
  | .START_RESUME =>
    let pc2 : Steps := match pc with
      | .BEGIN => .FILTER
      | .FILTER => .PINHEADS
      | .PINHEADS => .CLASSIFY
      | .CLASSIFY => .ROUTING_GROUND
      | .ROUTING_GROUND => .ROUTING_NONGROUND
      | .ROUTING_NONGROUND => .HEADLESS
      | .HEADLESS => .DONE
      | .HALT => prev
      | .DONE => .DONE
      | .ABORT => .ABORT
    (pc2, prev, some (stepstate pc2))
  | .PAUSE => (.HALT, pc, some (stepstate .HALT))
  | .STOP => (.ABORT, prev, some (stepstate .ABORT))
  | .SYNCH => (.BEGIN, prev, none)

/-- The shared locals of `SLASupportTree::generate` (source lines 715-745)
that the stage workers read and write. -/
structure GenState (K : Type) where
  filtered_points : List (V3 K) := []
  filtered_normals : List (V3 K) := []
  head_positions : List (V3 K) := []
  headless_positions : List (V3 K) := []
  head_heights : List (RayDist K) := []
  ground_heads : List Nat := []
  noground_heads : List Nat := []
  ground_connectors : List (List Nat) := []
  result : Impl K := {}
  trace : List (REvent K) := []

/-- `program[pc]()` (source lines 1263-1303): the worker bound to each step;
`BEGIN`, `ROUTING_NONGROUND`, `HEADLESS`, `DONE`, `HALT` and `ABORT` do
nothing. `fuel` bounds the unfuelled C++ loops of the routing stage. -/
def runProgram (env : Env K) (A : AMath K) (cfg : SupportConfig K)
    (points : List (V3 K)) (fuel : Nat) (pc : Steps) (st : GenState K) :
    GenState K :=
  match pc with
  | .FILTER =>
    let f := filterfn env A cfg points
    { st with filtered_points := f.1, filtered_normals := f.2.1
              head_positions := f.2.2.1, headless_positions := f.2.2.2 }
  | .PINHEADS =>
    { st with result := pinheadfn A cfg st.head_positions st.filtered_normals
                st.result }
  | .CLASSIFY =>
    let c := classifyfn env A cfg st.head_positions st.result
    { st with ground_heads := c.1, noground_heads := c.2.1
              head_heights := c.2.2.1, ground_connectors := c.2.2.2.1
              result := c.2.2.2.2 }
  | .ROUTING_GROUND =>
    let ghp : Nat → V3 K := fun i =>
      st.head_positions.getD (st.ground_heads.getD i 0) ⟨0, 0, 0⟩
    let r := routing_ground_fn env A cfg st.ground_connectors st.ground_heads
      ghp st.result fuel
    { st with result := r.1, trace := st.trace ++ r.2 }
  | _ => st

/-- The driving loop `while(pc < DONE || pc == HALT) { progress();
program[pc](); }` (source lines 1366-1369). The host's command stream is
the list `cmds`; each iteration consumes exactly one command through
`nextcmd`, and a run whose stream is exhausted is left where it stands (the
C++ worker would block in `nextcmd` forever). -/
def genLoop (env : Env K) (A : AMath K) (cfg : SupportConfig K)
    (points : List (V3 K)) (fuel : Nat) :
    Steps → Steps → GenState K → List Cmd → Steps × GenState K
  | pc, _, st, [] => (pc, st)
  | pc, prev, st, c :: rest =>
    if loopCond pc then
      let p := progressStep pc prev c
      genLoop env A cfg points fuel p.1 p.2.1
        (runProgram env A cfg points fuel p.1 st) rest
    else (pc, st)

/-- `SLASupportTree::generate` (source lines 715-1372): flatten the model's
support points, run the staged loop from `BEGIN`, and return
`pc == ABORT` together with the support-tree model. Reading an
uninitialised point-set row (the `support_points` bug) yields the
unspecified value `(0,0,0)`. -/
def generate (env : Env K) (A : AMath K) (cfg : SupportConfig K)
    (m : MModel K) (cmds : List Cmd) (fuel : Nat) : Bool × GenState K :=
  let points := (support_points m).map (fun o => o.getD ⟨0, 0, 0⟩)
  let r := genLoop env A cfg points fuel .BEGIN .BEGIN {} cmds
  (decide (r.1 = .ABORT), r.2)

/-- `add_sla_supports` (source lines 1387-1416): run `generate` (its
"aborted" result is discarded by the C++), then append one volume per head
mesh, head tail mesh, pillar mesh, pillar base, junction mesh and bridge
mesh to a fresh object of the host model. The returned list is the volumes
added. -/
def addSlaSupports (env : Env K) (A : AMath K) (cfg : SupportConfig K)
    (m : MModel K) (cmds : List Cmd) (fuel : Nat) : List (Contour3D K) :=
  let stree := (generate env A cfg m cmds fuel).2.result
  stree.heads.flatMap (fun h => [h.mesh, h.tail.mesh]) ++
  stree.pillars.flatMap (fun p => [p.mesh, p.base]) ++
  stree.junctions.map (fun j => j.mesh) ++
  stree.bridges.map (fun b => b.mesh)

/-! ## Claim-side (specification) definitions

Definitions in this block follow the wording of the claims being checked,
to be compared against the source-side definitions above. -/

/-- Claim side (C2): the successor along the ordered stage list `BEGIN,
FILTER, PINHEADS, CLASSIFY, ROUTING_GROUND, ROUTING_NONGROUND, HEADLESS,
DONE`; the terminal states stay put. -/
def specSucc : Steps → Steps
  | .BEGIN => .FILTER
  | .FILTER => .PINHEADS
  | .PINHEADS => .CLASSIFY
  | .CLASSIFY => .ROUTING_GROUND
  | .ROUTING_GROUND => .ROUTING_NONGROUND
  | .ROUTING_NONGROUND => .HEADLESS
  | .HEADLESS => .DONE
  | .DONE => .DONE
  | .HALT => .HALT
  | .ABORT => .ABORT

/-- Claim side (C2): the percentages `0, 10, 30, 50, 60, 70, 80, 100` for
`BEGIN` through `DONE` and `0` for `HALT` and `ABORT`. -/
def specPercent : Steps → Nat
  | .BEGIN => 0
  | .FILTER => 10
  | .PINHEADS => 30
  | .CLASSIFY => 50
  | .ROUTING_GROUND => 60
  | .ROUTING_NONGROUND => 70
  | .HEADLESS => 80
  | .DONE => 100
  | .HALT => 0
  | .ABORT => 0

/-- Claim side (C2): the states strictly before `DONE` in the ordered list. -/
def specBelowDone : List Steps :=
  [.BEGIN, .FILTER, .PINHEADS, .CLASSIFY, .ROUTING_GROUND,
   .ROUTING_NONGROUND, .HEADLESS]

/-- Claim side (C2, as frozen): every transition of the progress closure
reports the percentage of the state it lands in. -/
def C2EveryTransitionReports : Prop :=
  ∀ (pc prev : Steps) (cmd : Cmd),
    (progressStep pc prev cmd).2.2 = some (specPercent (progressStep pc prev cmd).1)

/-- Claim side (C7): the polar angle of a unit normal. -/
def specPolar (A : AMath K) (n : V3 K) : K := A.arccos n.z

/-- Claim side (C7): the normal reconstituted after saturating the polar
angle to at least `3π/4`. -/
def specCorrected (A : AMath K) (n : V3 K) : V3 K :=
  let polar := max (specPolar A n) (3 * A.pi / 4)
  let azimuth := A.atan2 n.y n.x
  ⟨A.cos azimuth * A.sin polar, A.sin azimuth * A.sin polar, A.cos polar⟩

/-- Claim side (C7): the width bound `w = head_width + head_back_radius +
2·head_front_radius`. -/
def specW (cfg : SupportConfig K) : K :=
  cfg.head_width_mm + cfg.head_back_radius_mm + 2 * cfg.head_front_radius_mm

/-- Claim side (C7): the visibility test — the ray from `point + 0.1·n`
along the corrected normal `n` first hits at `t > 2·w` or never hits. -/
def specVisible (env : Env K) (A : AMath K) (cfg : SupportConfig K)
    (p n : V3 K) : Prop :=
  rdGt (env.intersect (p + (1 / 10 : K) • specCorrected A n) (specCorrected A n))
    (2 * specW cfg) = true

instance (env : Env K) (A : AMath K) (cfg : SupportConfig K) (p n : V3 K) :
    Decidable (specVisible env A cfg p n) :=
  instDecidableEqBool _ _

/-- Claim side (C9): a member's sum of distances to all other members of
the cluster. -/
def specSumDist {P : Type} (clust : List Nat) (pointfn : Nat → P)
    (df : P → P → K) (i : Nat) : K :=
  (((List.range clust.length).filter (fun j => j ≠ i)).map (fun j =>
    df (pointfn (clust.getD i 0)) (pointfn (clust.getD j 0)))).sum

/-- Claim side (C4): the straight-line cast from one bridge endpoint toward
the other does not intersect the mesh at a distance smaller than the 2D
distance between the endpoints. -/
def bridgeCastOK (env : Env K) (A : AMath K) (src dst : V3 K) : Prop :=
  rdLt (env.intersect src (normalized A (dst - src))) (dist2 A src dst) = false

/-- Claim side (C4, as frozen): every bridge ever added during the stage —
side-head bridges and ring-weaving bridges alike — satisfies
`bridgeCastOK`. -/
def BridgeCastClear (env : Env K) (A : AMath K) (tr : List (REvent K)) : Prop :=
  ∀ src dst r, (REvent.sideBridge src dst r ∈ tr ∨ REvent.weaveBridge src dst r ∈ tr) →
    bridgeCastOK env A src dst

/-- Helper predicate for C4: an event, if it is a ring-weaving bridge,
satisfies `bridgeCastOK`. -/
def weaveEvClear (env : Env K) (A : AMath K) (ev : REvent K) : Prop :=
  ∀ src dst r, ev = REvent.weaveBridge src dst r → bridgeCastOK env A src dst

/-- Claim side (C8, as frozen): every query of the junction spatial index
sees every junction created earlier in the run that lies within the query
radius. -/
def C8QuerySeesAll (A : AMath K) (tr : List (REvent K)) : Prop :=
  ∀ (k : Nat) pp d found, tr.get? k = some (REvent.query pp d found) →
    ∀ (m : Nat) id jpos jr, m < k → tr.get? m = some (REvent.junction id jpos jr) →
      ltB (dist3 A pp ⟨jpos.x, jpos.y, 0⟩) d = true → id ∈ found

/-- Helper predicate for C8: an event, if it is a query, returns exactly the
members of `jindex` within its radius. -/
def queryFromIndex (A : AMath K) (jindex : List (V3 K × Nat)) (ev : REvent K) :
    Prop :=
  ∀ pp d found, ev = REvent.query pp d found →
    found = (jindex.filter (fun se => ltB (dist3 A pp se.1) d)).map
      (fun se => se.2)

/-! ## Concrete scenario inputs

All scenario values are polymorphic in the scalar (and take the analytic
bundle as an argument) so they compile to executable code; the theorems
instantiate them at `ℝ`. -/

/-- A model with one object, two instances (the identity and a unit
translation) and a single support point. -/
def c1Model : MModel K :=
  ⟨[⟨[fun v => v, fun v => v + ⟨1, 1, 1⟩], [⟨2, 3, 4⟩]⟩]⟩

/-- A model with one object, one identity instance and one support point at
`(0, 0, 10)`. -/
def c3Model : MModel K := ⟨[⟨[fun v => v], [⟨0, 0, 10⟩]⟩]⟩

/-- The standard configuration of the scenarios: `r_front = 1/2`,
`r_back = 1`, `width = 2`, `pillar = 3/10`, `base_radius = base_height = 1`
and the given tilt. -/
def cfgStd (tilt : K) : SupportConfig K :=
  ⟨1 / 2, 1, 2, 3 / 10, 1, 1, tilt, 0⟩

/-- An environment whose ray interrogator always answers `t` and whose
rotations are the identity; `cluster` and `normals` are never consulted on
the scenarios using it. -/
def envConst (t : RayDist K) : Env K :=
  ⟨fun _ _ => t, fun l => l, fun _ _ _ => [], fun _ _ v => v⟩

/-- The environment of the C3 run: no ray ever hits, the face normal of
every queried point is `(0, 0, -1)` (a point on the underside of the
object), and the single input point clusters alone. -/
def envC3 : Env K :=
  ⟨fun _ _ => none, fun l => l.map (fun _ => ⟨0, 0, -1⟩), fun _ _ _ => [[0]],
   fun _ _ v => v⟩

/-- A support-tree model holding one standard untransformed head per given
pin position (as the PINHEADS stage would have built with normals
`(0, 0, -1)` under `cfgStd`). -/
def headsAt (A : AMath K) (ps : List (V3 K)) : Impl K :=
  ⟨ps.map (fun p => mkHead A 1 (1 / 2) 2 ⟨0, 0, -1⟩ p 45), [], [], []⟩

/-! ## Basic vector lemmas -/

@[simp] theorem V3.add_def (a b : V3 K) :
    a + b = ⟨a.x + b.x, a.y + b.y, a.z + b.z⟩ := rfl

@[simp] theorem V3.sub_def (a b : V3 K) :
    a - b = ⟨a.x - b.x, a.y - b.y, a.z - b.z⟩ := rfl

@[simp] theorem V3.smul_def (c : K) (v : V3 K) :
    c • v = ⟨c * v.x, c * v.y, c * v.z⟩ := rfl

theorem dot3_def (a b : V3 K) :
    dot3 a b = a.x * b.x + a.y * b.y + a.z * b.z := rfl

/-- The 2D distance only reads the `x, y` components and is symmetric in
its endpoints. -/
theorem dist2_symm (A : AMath K) (a b : V3 K) : dist2 A a b = dist2 A b a := by
  unfold dist2; congr 1; ring

/-- The 2D distance ignores the `z` components. -/
theorem dist2_xy (A : AMath K) (a b b' : V3 K) (hx : b'.x = b.x)
    (hy : b'.y = b.y) : dist2 A a b' = dist2 A a b := by
  unfold dist2; rw [hx, hy]

theorem rdGe_not_rdLt {t : RayDist K} {c : K} (h : rdGe t c = true) :
    rdLt t c = false := by
  cases t with
  | none => rfl
  | some v =>
    simp only [rdGe, decide_eq_true_eq] at h
    simp only [rdLt, decide_eq_false_iff_not, not_lt]
    exact h

/-! ## C2 : the control step of the planner -/

/-- C2, as frozen, is false on the code: the `SYNCH` case of the `progress`
switch falls through without a `statuscb` call, so the transition from
`BEGIN` under `SYNCH` reports nothing rather than the landing state's
percentage. -/
theorem c2_counterexample : ¬ C2EveryTransitionReports := by
  intro h
  have := h Steps.BEGIN Steps.BEGIN Cmd.SYNCH
  simp [progressStep, specPercent] at this

/-- C2 (amended): under `START_RESUME` the state advances one step along
`BEGIN..DONE` and from `HALT` returns to the saved state; `PAUSE` saves the
current state and moves to `HALT`; `STOP` moves to `ABORT` from every
state; `SYNCH` resets to `BEGIN`; every transition except `SYNCH` reports
the percentage `0, 10, 30, 50, 60, 70, 80, 100` of the state it lands in
(`0` for `HALT` and `ABORT`), while `SYNCH` emits no progress callback; and
the driving loop runs while the state is below `DONE` or equals `HALT`. -/
theorem c2_amended : ∀ (pc prev : Steps) (cmd : Cmd),
    (progressStep pc prev Cmd.START_RESUME).1 =
      (if pc = Steps.HALT then prev else specSucc pc) ∧
    (progressStep pc prev Cmd.PAUSE).1 = Steps.HALT ∧
    (progressStep pc prev Cmd.PAUSE).2.1 = pc ∧
    (progressStep pc prev Cmd.STOP).1 = Steps.ABORT ∧
    (progressStep pc prev Cmd.SYNCH).1 = Steps.BEGIN ∧
    (cmd ≠ Cmd.SYNCH →
      (progressStep pc prev cmd).2.2 =
        some (specPercent (progressStep pc prev cmd).1)) ∧
    (progressStep pc prev Cmd.SYNCH).2.2 = none ∧
    (loopCond pc = true ↔ (pc ∈ specBelowDone ∨ pc = Steps.HALT)) := by
  decide

/-! ## C10 : transform and add_tail only touch the meshes -/

/-- C10: `Head::transform` and `Head::add_tail` mutate only the head's
meshes — the fields `tr`, `dir`, `r_back_mm`, `r_pin_mm`, `width_mm` and
`steps` are unchanged by both calls, so `junction_point()` and
`fullwidth()` return the same values before and after either call. -/
theorem c10_frame (A : AMath K) (rot : V3 K → V3 K) (h : Head K)
    (length radius : K) :
    ((h.transform rot).dir = h.dir ∧ (h.transform rot).tr = h.tr ∧
     (h.transform rot).r_back_mm = h.r_back_mm ∧
     (h.transform rot).r_pin_mm = h.r_pin_mm ∧
     (h.transform rot).width_mm = h.width_mm ∧
     (h.transform rot).steps = h.steps ∧
     (h.transform rot).junction_point = h.junction_point ∧
     (h.transform rot).fullwidth = h.fullwidth) ∧
    ((h.add_tail A length radius).dir = h.dir ∧
     (h.add_tail A length radius).tr = h.tr ∧
     (h.add_tail A length radius).r_back_mm = h.r_back_mm ∧
     (h.add_tail A length radius).r_pin_mm = h.r_pin_mm ∧
     (h.add_tail A length radius).width_mm = h.width_mm ∧
     (h.add_tail A length radius).steps = h.steps ∧
     (h.add_tail A length radius).junction_point = h.junction_point ∧
     (h.add_tail A length radius).fullwidth = h.fullwidth) :=
  ⟨⟨rfl, rfl, rfl, rfl, rfl, rfl, rfl, rfl⟩,
   ⟨rfl, rfl, rfl, rfl, rfl, rfl, rfl, rfl⟩⟩

/-! ## C1 : support_points overwrites rows and leaves rows unset -/

/-- C1: evaluation at the failing input — one object, two instances, one
support point. The allocation is for 2 rows (one per instance-point pair),
but `int i = 0` is re-initialised inside the instance loop, so both writes
target row 0 (the second instance overwrites the first) and row 1 is never
written. -/
theorem c1_eval :
    support_points (c1Model : MModel ℝ) =
      [some ⟨3, 4, 5⟩, none] ∧
    support_points_writes (c1Model : MModel ℝ) =
      [(0, ⟨2, 3, 4⟩), (0, ⟨3, 4, 5⟩)] := by
  constructor <;>
    norm_num [c1Model, support_points, support_points_writes, List.enum,
      List.enumFrom, List.replicate]

/-! ## C6 : the three Bridge constructors -/

theorem V3.smul_smul (c c2 : K) (v : V3 K) : c • (c2 • v) = (c * c2) • v := by
  simp [mul_assoc]

theorem V3.one_smul (v : V3 K) : (1 : K) • v = v := by simp

/-- The two centre vertices the `cylinder` constructor pushes first. -/
theorem cylinder_first_points (A : AMath K) (r h fa : K) :
    2 ≤ (cylinder A r h fa).points.length ∧
    (cylinder A r h fa).points.getD 0 ⟨0, 0, 0⟩ = ⟨0, 0, 0⟩ ∧
    (cylinder A r h fa).points.getD 1 ⟨0, 0, 0⟩ = ⟨0, 0, h⟩ := by
  refine ⟨?_, ?_, ?_⟩ <;> simp [cylinder]

/-- C6 (amended): only the junction-junction constructor builds the
cylinder — its mesh is nonempty, of radius `r`, and its axis is the segment
from `j1.pos` to `j2.pos` (the transformed images of the cylinder's two
axis endpoints), i.e. direction `(j2.pos - j1.pos)/‖·‖` and length
`‖j2.pos - j1.pos‖`. The head-junction and junction-pillar constructors
produce bridges with empty meshes (the former keeps `r = r_mm`, the latter
the member default `0.8`). The hypotheses state the contract of the
external Eigen rotation: homogeneous, and mapping `(0,0,1)` onto the
normalized direction; `hd` excludes coincident junctions. -/
theorem c6_amended (rotFT : V3 K → V3 K → V3 K → V3 K) (A : AMath K)
    (j1 j2 : Junction K) (r : K) (hh : Head K) (jx jy : Junction K)
    (pl : Pillar K) (r2 : K)
    (hlin : ∀ (c : K) (v : V3 K),
      rotFT ⟨0, 0, 1⟩ (normalized A (j2.pos - j1.pos)) (c • v) =
        c • rotFT ⟨0, 0, 1⟩ (normalized A (j2.pos - j1.pos)) v)
    (hdir : rotFT ⟨0, 0, 1⟩ (normalized A (j2.pos - j1.pos)) ⟨0, 0, 1⟩ =
      normalized A (j2.pos - j1.pos))
    (hd : A.sqrt (dot3 (j2.pos - j1.pos) (j2.pos - j1.pos)) ≠ 0) :
    2 ≤ (mkBridgeJJ rotFT A j1 j2 r).mesh.points.length ∧
    (mkBridgeJJ rotFT A j1 j2 r).mesh.points.getD 0 ⟨0, 0, 0⟩ = j1.pos ∧
    (mkBridgeJJ rotFT A j1 j2 r).mesh.points.getD 1 ⟨0, 0, 0⟩ = j2.pos ∧
    (mkBridgeJJ rotFT A j1 j2 r).r = r ∧
    (mkBridgeHJ hh jx r2).mesh = ⟨[], []⟩ ∧ (mkBridgeHJ hh jx r2).r = r2 ∧
    (mkBridgeJP jy pl).mesh = ⟨[], []⟩ ∧ (mkBridgeJP jy pl).r = 8 / 10 := by
  have hdd : dot3 (j1.pos - j2.pos) (j1.pos - j2.pos) =
      dot3 (j2.pos - j1.pos) (j2.pos - j1.pos) := by
    simp only [dot3, V3.sub_def]; ring
  have hR0 : rotFT ⟨0, 0, 1⟩ (normalized A (j2.pos - j1.pos)) ⟨0, 0, 0⟩ =
      ⟨0, 0, 0⟩ := by
    have h0 : ((0 : K) • (⟨0, 0, 0⟩ : V3 K)) = (⟨0, 0, 0⟩ : V3 K) := by simp
    have := hlin 0 ⟨0, 0, 0⟩
    rw [h0] at this
    rw [this]
    simp
  have hax : (⟨0, 0, dist3 A j2.pos j1.pos⟩ : V3 K) =
      (dist3 A j2.pos j1.pos) • (⟨0, 0, 1⟩ : V3 K) := by simp
  have hRd : rotFT ⟨0, 0, 1⟩ (normalized A (j2.pos - j1.pos))
      ⟨0, 0, dist3 A j2.pos j1.pos⟩ = j2.pos - j1.pos := by
    rw [hax, hlin, hdir, normalized, V3.smul_smul, dist3, hdd,
      mul_one_div_cancel hd, V3.one_smul]
  obtain ⟨hlen, hp0, hp1⟩ := cylinder_first_points A r (dist3 A j2.pos j1.pos)
    (2 * A.pi / 45)
  refine ⟨?_, ?_, ?_, rfl, rfl, rfl, rfl, rfl⟩
  · simpa [mkBridgeJJ] using hlen
  · show ((cylinder A r (dist3 A j2.pos j1.pos) (2 * A.pi / 45)).points.map
        (fun p => rotFT ⟨0, 0, 1⟩ (normalized A (j2.pos - j1.pos)) p + j1.pos)).getD
        0 ⟨0, 0, 0⟩ = j1.pos
    rcases hcyl : (cylinder A r (dist3 A j2.pos j1.pos) (2 * A.pi / 45)).points with
      _ | ⟨a, _ | ⟨b, rest⟩⟩
    · rw [hcyl] at hlen; simp at hlen
    · rw [hcyl] at hlen; simp at hlen
    · rw [hcyl] at hp0
      simp only [List.getD_cons_zero] at hp0
      simp only [List.map_cons, List.getD_cons_zero, hp0, hR0]
      simp
  · show ((cylinder A r (dist3 A j2.pos j1.pos) (2 * A.pi / 45)).points.map
        (fun p => rotFT ⟨0, 0, 1⟩ (normalized A (j2.pos - j1.pos)) p + j1.pos)).getD
        1 ⟨0, 0, 0⟩ = j2.pos
    rcases hcyl : (cylinder A r (dist3 A j2.pos j1.pos) (2 * A.pi / 45)).points with
      _ | ⟨a, _ | ⟨b, rest⟩⟩
    · rw [hcyl] at hlen; simp at hlen
    · rw [hcyl] at hlen; simp at hlen
    · rw [hcyl] at hp1
      simp only [List.getD_cons_succ, List.getD_cons_zero] at hp1
      simp only [List.map_cons, List.getD_cons_succ, List.getD_cons_zero, hp1, hRd]
      simp

/-- C6, as frozen, is false on the code: a bridge constructed from a head
and a junction, and one from a junction and a pillar, carry empty meshes
(the head-junction constructor's body is commented out, the
junction-pillar one is empty). -/
theorem c6_counterexample :
    (mkBridgeHJ
      (mkHead (⟨Real.sqrt, Real.sin, Real.cos, Real.arccos, fun _ _ => 0,
        Real.pi⟩ : AMath ℝ) 1 (1 / 2) 2 ⟨0, 0, -1⟩ ⟨0, 0, 0⟩ 45)
      (mkJunction (⟨Real.sqrt, Real.sin, Real.cos, Real.arccos, fun _ _ => 0,
        Real.pi⟩ : AMath ℝ) ⟨1, 1, 1⟩ 1 45) (8 / 10)).mesh.points = [] ∧
    (mkBridgeJP
      (mkJunction (⟨Real.sqrt, Real.sin, Real.cos, Real.arccos, fun _ _ => 0,
        Real.pi⟩ : AMath ℝ) ⟨1, 1, 1⟩ 1 45)
      (junkPillar : Pillar ℝ)).mesh.points = [] :=
  ⟨rfl, rfl⟩

/-- C6 witness: the amended theorem applied at two concrete junctions at
`(0,0,0)` and `(0,0,5)` with the identity rotation (which is the Eigen
rotation for this axis-aligned direction). -/
theorem c6_witness :
    2 ≤ (mkBridgeJJ (fun _ _ v => v)
        (⟨Real.sqrt, Real.sin, Real.cos, Real.arccos, fun _ _ => 0,
          Real.pi⟩ : AMath ℝ)
        (mkJunction (⟨Real.sqrt, Real.sin, Real.cos, Real.arccos, fun _ _ => 0,
          Real.pi⟩ : AMath ℝ) ⟨0, 0, 0⟩ 1 45)
        (mkJunction (⟨Real.sqrt, Real.sin, Real.cos, Real.arccos, fun _ _ => 0,
          Real.pi⟩ : AMath ℝ) ⟨0, 0, 5⟩ 1 45) (8 / 10)).mesh.points.length ∧
    (mkBridgeJJ (fun _ _ v => v)
        (⟨Real.sqrt, Real.sin, Real.cos, Real.arccos, fun _ _ => 0,
          Real.pi⟩ : AMath ℝ)
        (mkJunction (⟨Real.sqrt, Real.sin, Real.cos, Real.arccos, fun _ _ => 0,
          Real.pi⟩ : AMath ℝ) ⟨0, 0, 0⟩ 1 45)
        (mkJunction (⟨Real.sqrt, Real.sin, Real.cos, Real.arccos, fun _ _ => 0,
          Real.pi⟩ : AMath ℝ) ⟨0, 0, 5⟩ 1 45) (8 / 10)).mesh.points.getD 0
        ⟨0, 0, 0⟩ = ⟨0, 0, 0⟩ ∧
    (mkBridgeJJ (fun _ _ v => v)
        (⟨Real.sqrt, Real.sin, Real.cos, Real.arccos, fun _ _ => 0,
          Real.pi⟩ : AMath ℝ)
        (mkJunction (⟨Real.sqrt, Real.sin, Real.cos, Real.arccos, fun _ _ => 0,
          Real.pi⟩ : AMath ℝ) ⟨0, 0, 0⟩ 1 45)
        (mkJunction (⟨Real.sqrt, Real.sin, Real.cos, Real.arccos, fun _ _ => 0,
          Real.pi⟩ : AMath ℝ) ⟨0, 0, 5⟩ 1 45) (8 / 10)).mesh.points.getD 1
        ⟨0, 0, 0⟩ = ⟨0, 0, 5⟩ ∧
    (mkBridgeJJ (fun _ _ v => v)
        (⟨Real.sqrt, Real.sin, Real.cos, Real.arccos, fun _ _ => 0,
          Real.pi⟩ : AMath ℝ)
        (mkJunction (⟨Real.sqrt, Real.sin, Real.cos, Real.arccos, fun _ _ => 0,
          Real.pi⟩ : AMath ℝ) ⟨0, 0, 0⟩ 1 45)
        (mkJunction (⟨Real.sqrt, Real.sin, Real.cos, Real.arccos, fun _ _ => 0,
          Real.pi⟩ : AMath ℝ) ⟨0, 0, 5⟩ 1 45) (8 / 10)).r = 8 / 10 ∧
    (mkBridgeHJ (junkHead : Head ℝ) (junkJunction : Junction ℝ) 1).mesh =
      ⟨[], []⟩ ∧
    (mkBridgeHJ (junkHead : Head ℝ) (junkJunction : Junction ℝ) 1).r = 1 ∧
    (mkBridgeJP (junkJunction : Junction ℝ) (junkPillar : Pillar ℝ)).mesh =
      ⟨[], []⟩ ∧
    (mkBridgeJP (junkJunction : Junction ℝ) (junkPillar : Pillar ℝ)).r =
      8 / 10 := by
  have h25 : Real.sqrt 25 = 5 := by
    rw [show (25 : ℝ) = 5 ^ 2 by norm_num, Real.sqrt_sq (by norm_num : (0:ℝ) ≤ 5)]
  exact c6_amended (fun _ _ v => v) _ _ _ (8 / 10) junkHead junkJunction
    junkJunction junkPillar 1 (fun _ _ => rfl)
    (by simp only [mkJunction, normalized, dot3, V3.sub_def, V3.smul_def]
        norm_num [h25])
    (by simp only [mkJunction, dot3, V3.sub_def]
        norm_num [h25])

/-! ## C9 : cluster_centroid -/

theorem argminFirst_succ (f : Nat → K) (n : Nat) (hn : 0 < n) :
    argminFirst f (n + 1) =
      (if f n < f (argminFirst f n) then n else argminFirst f n) := by
  unfold argminFirst
  rw [List.range_succ, List.drop_append_of_le_length (by simpa using hn),
    List.foldl_append]
  rfl

theorem argminFirst_spec (f : Nat → K) :
    ∀ n, 0 < n →
      argminFirst f n < n ∧ (∀ i < n, f (argminFirst f n) ≤ f i) ∧
      (∀ i < argminFirst f n, f (argminFirst f n) < f i) := by
  intro n
  induction n with
  | zero => omega
  | succ n ih =>
    intro _
    rcases Nat.eq_zero_or_pos n with h0 | hn
    · subst h0
      have e : argminFirst f (0 + 1) = 0 := rfl
      rw [e]
      refine ⟨by omega, ?_, by omega⟩
      intro i hi
      have : i = 0 := by omega
      subst this
      exact le_rfl
    · obtain ⟨hlt, hmin, hties⟩ := ih hn
      rw [argminFirst_succ f n hn]
      by_cases hc : f n < f (argminFirst f n)
      · rw [if_pos hc]
        refine ⟨by omega, ?_, ?_⟩
        · intro i hi
          rcases Nat.lt_succ_iff_lt_or_eq.mp hi with h | h
          · exact le_of_lt (lt_of_lt_of_le hc (hmin i h))
          · subst h; exact le_rfl
        · intro i hi
          exact lt_of_lt_of_le hc (hmin i hi)
      · rw [if_neg hc]
        refine ⟨by omega, ?_, hties⟩
        intro i hi
        rcases Nat.lt_succ_iff_lt_or_eq.mp hi with h | h
        · exact hmin i h
        · subst h; exact not_lt.mp hc

theorem ccFold_apply {P : Type} (clust : List Nat) (pointfn : Nat → P)
    (df : P → P → K) (L : List (Nat × Nat)) (g : Nat → K) (k : Nat) :
    (L.foldl (ccStep clust pointfn df) g) k =
      g k + (L.map (fun ij =>
        if k = ij.1 ∨ k = ij.2 then
          df (pointfn (clust.getD ij.1 0)) (pointfn (clust.getD ij.2 0))
        else 0)).sum := by
  induction L generalizing g with
  | nil => simp
  | cons ij L ih =>
    simp only [List.foldl_cons, List.map_cons, List.sum_cons, ih]
    unfold ccStep
    by_cases h : k = ij.1 ∨ k = ij.2
    · rw [if_pos h, if_pos h]; ring
    · rw [if_neg h, if_neg h]; ring

theorem sum_map_range (f : Nat → K) (n : Nat) :
    ((List.range n).map f).sum = ∑ i in Finset.range n, f i := by
  induction n with
  | zero => simp
  | succ n ih => simp [List.range_succ, Finset.sum_range_succ, ih]

theorem sum_map_filter_range (p : Nat → Bool) (f : Nat → K) (n : Nat) :
    (((List.range n).filter p).map f).sum =
      ∑ i in Finset.range n, if p i then f i else 0 := by
  induction n with
  | zero => simp
  | succ n ih =>
    rw [List.range_succ, List.filter_append, List.map_append, List.sum_append,
      Finset.sum_range_succ, ih]
    by_cases h : p n <;> simp [h]

theorem sum_map_flatMap {α β : Type} (l : List α) (g : α → List β)
    (F : β → K) :
    ((l.flatMap g).map F).sum = (l.map (fun a => ((g a).map F).sum)).sum := by
  induction l with
  | nil => simp
  | cons a l ih => simp [ih]

theorem ccPairs_sum (F : Nat × Nat → K) (n : Nat) :
    ((ccPairs n).map F).sum =
      ∑ i in Finset.range n, ∑ j in Finset.range n,
        if i < j then F (i, j) else 0 := by
  unfold ccPairs
  rw [sum_map_flatMap]
  have inner : ∀ i, ((((List.range n).filter (fun j => decide (i < j))).map
      (fun j => (i, j))).map F).sum =
      ∑ j in Finset.range n, if i < j then F (i, j) else 0 := by
    intro i
    rw [List.map_map]
    have hc : (F ∘ fun j => (i, j)) = fun j => F (i, j) := rfl
    rw [hc, sum_map_filter_range (fun j => decide (i < j)) (fun j => F (i, j)) n]
    apply Finset.sum_congr rfl
    intro j _
    by_cases h : i < j <;> simp [h]
  calc ((List.range n).map (fun i =>
        ((((List.range n).filter (fun j => decide (i < j))).map
          (fun j => (i, j))).map F).sum)).sum
      = ((List.range n).map (fun i =>
          ∑ j in Finset.range n, if i < j then F (i, j) else 0)).sum := by
        apply congrArg
        apply List.map_congr_left
        intro i _
        exact inner i
    _ = ∑ i in Finset.range n, ∑ j in Finset.range n,
          if i < j then F (i, j) else 0 := sum_map_range _ n

theorem contrib_sum (dd : Nat → Nat → K) (hsym : ∀ a b, dd a b = dd b a)
    (n k : Nat) (hk : k < n) :
    (∑ i in Finset.range n, ∑ j in Finset.range n,
        if i < j then (if k = i ∨ k = j then dd i j else 0) else 0) =
      ∑ j in Finset.range n, if j ≠ k then dd k j else 0 := by
  have point : ∀ i j : Nat,
      (if i < j then (if k = i ∨ k = j then dd i j else 0) else 0) =
        (if k = i then (if k < j then dd k j else 0) else 0) +
        (if k = j then (if i < k then dd i k else 0) else 0) := by
    intro i j
    by_cases hij : i < j <;> by_cases hik : k = i <;> by_cases hjk : k = j <;>
      simp [hij, hik, hjk] <;> omega
  calc (∑ i in Finset.range n, ∑ j in Finset.range n,
        if i < j then (if k = i ∨ k = j then dd i j else 0) else 0)
      = (∑ i in Finset.range n, ∑ j in Finset.range n,
          ((if k = i then (if k < j then dd k j else 0) else 0) +
           (if k = j then (if i < k then dd i k else 0) else 0))) := by
        apply Finset.sum_congr rfl; intro i _
        apply Finset.sum_congr rfl; intro j _
        exact point i j
    _ = (∑ i in Finset.range n,
          ((if k = i then (∑ j in Finset.range n, if k < j then dd k j else 0)
            else 0) +
           (if i < k then dd i k else 0))) := by
        apply Finset.sum_congr rfl; intro i _
        rw [Finset.sum_add_distrib]
        congr 1
        · by_cases h : k = i
          · simp [h]
          · simp [h]
        · rw [Finset.sum_ite_eq (Finset.range n) k
            (fun _ => if i < k then dd i k else 0)]
          simp [Finset.mem_range.mpr hk]
    _ = (∑ j in Finset.range n, if k < j then dd k j else 0) +
          (∑ i in Finset.range n, if i < k then dd i k else 0) := by
        rw [Finset.sum_add_distrib]
        congr 1
        rw [Finset.sum_ite_eq (Finset.range n) k]
        simp [Finset.mem_range.mpr hk]
    _ = ∑ j in Finset.range n, if j ≠ k then dd k j else 0 := by
        rw [← Finset.sum_add_distrib]
        apply Finset.sum_congr rfl
        intro j _
        by_cases h1 : k < j
        · have h2 : ¬ j < k := by omega
          have h3 : j ≠ k := by omega
          simp [h1, h2, h3]
        · by_cases h2 : j < k
          · have h3 : j ≠ k := by omega
            simp [h1, h2, h3, hsym j k]
          · have h3 : ¬ j ≠ k := by omega
            simp [h1, h2, h3]

/-- C9: `cluster_centroid` returns `-1` exactly when the cluster is empty,
`0` for clusters of size 1 or 2, and for a cluster of size at least 3 (and
a symmetric distance) the index within the cluster of the member whose sum
of distances to all other members is minimal, ties broken by the lowest
member index (every strictly earlier index has a strictly larger sum). -/
theorem c9_cluster_centroid {P : Type} (clust : List Nat) (pointfn : Nat → P)
    (df : P → P → K) :
    (cluster_centroid clust pointfn df = -1 ↔ clust = []) ∧
    ((clust.length = 1 ∨ clust.length = 2) →
      cluster_centroid clust pointfn df = 0) ∧
    (3 ≤ clust.length → (∀ a b, df a b = df b a) →
      ∃ r : Nat, cluster_centroid clust pointfn df = (r : ℤ) ∧
        r < clust.length ∧
        (∀ i < clust.length,
          specSumDist clust pointfn df r ≤ specSumDist clust pointfn df i) ∧
        (∀ i < r,
          specSumDist clust pointfn df r < specSumDist clust pointfn df i)) := by
  refine ⟨?_, ?_, ?_⟩
  · by_cases h0 : clust.length = 0
    · simp [cluster_centroid, h0, List.length_eq_zero.mp h0]
    · by_cases h2 : clust.length ≤ 2
      · simp only [cluster_centroid, h0, if_false, h2, if_true]
        constructor
        · intro h; exact absurd h (by decide)
        · intro h; exact absurd (congrArg List.length h) (by simpa using h0)
      · simp only [cluster_centroid, h0, if_false, h2, if_true]
        constructor
        · intro h
          exfalso
          omega
        · intro h; exact absurd (congrArg List.length h) (by simpa using h0)
  · intro h
    have h0 : ¬ clust.length = 0 := by omega
    have h2 : clust.length ≤ 2 := by omega
    simp [cluster_centroid, h0, h2]
  · intro h3 hsym
    have h0 : ¬ clust.length = 0 := by omega
    have h2 : ¬ clust.length ≤ 2 := by omega
    have hn : 0 < clust.length := by omega
    have hnK : (0 : K) < (clust.length : K) := by
      exact_mod_cast hn
    set n := clust.length with hnn
    set dd : Nat → Nat → K := fun a b =>
      df (pointfn (clust.getD a 0)) (pointfn (clust.getD b 0)) with hdd
    have hddsym : ∀ a b, dd a b = dd b a := fun a b => hsym _ _
    set avgs : Nat → K :=
      (ccPairs n).foldl (ccStep clust pointfn df) (fun _ => 0) with havgs
    set avgs2 : Nat → K := fun k => avgs k / (n : K) with havgs2
    have hval : cluster_centroid clust pointfn df = (argminFirst avgs2 n : ℤ) := by
      rw [cluster_centroid]
      rw [if_neg h0, if_neg h2]
    have hS : ∀ k, k < n → avgs k = specSumDist clust pointfn df k := by
      intro k hk
      rw [havgs, ccFold_apply]
      rw [ccPairs_sum (fun ij =>
        if k = ij.1 ∨ k = ij.2 then dd ij.1 ij.2 else 0) n]
      rw [contrib_sum dd hddsym n k hk]
      rw [specSumDist, ← hnn]
      rw [sum_map_filter_range (fun j => decide ¬ (j = k))
        (fun j => dd k j) n]
      simp only [zero_add]
      apply Finset.sum_congr rfl
      intro j _
      by_cases h : j = k <;> simp [h]
    obtain ⟨hlt, hmin, hties⟩ := argminFirst_spec avgs2 n hn
    refine ⟨argminFirst avgs2 n, hval, hlt, ?_, ?_⟩
    · intro i hi
      have := hmin i hi
      rw [havgs2] at this
      simp only at this
      rw [hS _ hlt, hS _ hi] at this
      exact (div_le_div_iff_of_pos_right hnK).mp this
    · intro i hi
      have := hties i hi
      rw [havgs2] at this
      simp only at this
      rw [hS _ hlt, hS _ (lt_trans hi hlt)] at this
      exact (div_lt_div_iff_of_pos_right hnK).mp this

/-! ## C7 : the FILTER stage per-point decision -/

theorem specPolar_eq (A : AMath K) (n : V3 K) :
    A.arccos (n.z / 1) = specPolar A n := by
  rw [specPolar, div_one]

theorem specCorrected_eq (A : AMath K) (n : V3 K) :
    (⟨A.cos (A.atan2 n.y n.x) * A.sin (max (specPolar A n) (3 * A.pi / 4)),
      A.sin (A.atan2 n.y n.x) * A.sin (max (specPolar A n) (3 * A.pi / 4)),
      A.cos (max (specPolar A n) (3 * A.pi / 4))⟩ : V3 K) =
    specCorrected A n := by
  rw [specCorrected]

theorem specW_eq (cfg : SupportConfig K) :
    cfg.head_width_mm + cfg.head_back_radius_mm +
      2 * cfg.head_front_radius_mm = specW cfg := rfl

theorem specVisible_eq (env : Env K) (A : AMath K) (cfg : SupportConfig K)
    (p n : V3 K) :
    (rdGt (env.intersect (p + (1 / 10 : K) • specCorrected A n)
        (specCorrected A n)) (2 * specW cfg) = true) =
      specVisible env A cfg p n := rfl

theorem filterFold_append (env : Env K) (A : AMath K) (cfg : SupportConfig K) :
    ∀ (pts nmls : List (V3 K))
      (acc : List (V3 K) × List (V3 K) × List (V3 K)),
      nmls.length = pts.length →
      (List.range pts.length).foldl (filterStep env A cfg pts nmls) acc =
        (acc.1 ++ (pts.zip nmls).filterMap (fun pn =>
           if A.pi / 2 ≤ specPolar A pn.2 ∧ specVisible env A cfg pn.1 pn.2
           then some pn.1 else none),
         acc.2.1 ++ (pts.zip nmls).filterMap (fun pn =>
           if A.pi / 2 ≤ specPolar A pn.2 ∧ specVisible env A cfg pn.1 pn.2
           then some (specCorrected A pn.2) else none),
         acc.2.2 ++ (pts.zip nmls).filterMap (fun pn =>
           if A.pi / 2 ≤ specPolar A pn.2 ∧ ¬ specVisible env A cfg pn.1 pn.2
           then some pn.1 else none)) := by
  intro pts
  induction pts with
  | nil => intro nmls acc _; simp
  | cons p pts2 ih =>
    intro nmls acc hlen
    cases nmls with
    | nil => simp at hlen
    | cons n nmls2 =>
      have hlen2 : nmls2.length = pts2.length := by simpa using hlen
      rw [show (p :: pts2).length = pts2.length + 1 from rfl,
        List.range_succ_eq_map, List.foldl_cons, List.foldl_map]
      have hshift :
          (List.range pts2.length).foldl
            (fun a i => filterStep env A cfg (p :: pts2) (n :: nmls2) a (i + 1))
            (filterStep env A cfg (p :: pts2) (n :: nmls2) acc 0) =
          (List.range pts2.length).foldl (filterStep env A cfg pts2 nmls2)
            (filterStep env A cfg (p :: pts2) (n :: nmls2) acc 0) :=
        List.foldl_ext _ _ _ (fun a i _ => rfl)
      rw [hshift, ih nmls2 _ hlen2]
      simp only [filterStep, List.getD_cons_zero, specPolar_eq,
        specCorrected_eq, specW_eq, specVisible_eq]
      by_cases h1 : A.pi / 2 ≤ specPolar A n <;>
        by_cases h2 : specVisible env A cfg p n <;>
        simp [h1, h2, List.filterMap_cons]

/-- C7: in the FILTER stage, a deduplicated point whose face normal has a
polar angle below `π/2` is discarded entirely (it reaches neither
`head_positions` nor `headless_positions`); otherwise the polar angle is
saturated to at least `3π/4`, the normal reconstituted, and the point goes
to `head_positions` paired with the corrected normal exactly when the ray
from `point + 0.1·n` along the corrected normal `n` first hits at distance
`t > 2·(head_width + head_back_radius + 2·head_front_radius)` or never
hits, and to `headless_positions` otherwise. -/
theorem c7_filter (env : Env K) (A : AMath K) (cfg : SupportConfig K)
    (pts nmls : List (V3 K)) (hlen : nmls.length = pts.length) :
    filterLoop env A cfg pts nmls =
      ((pts.zip nmls).filterMap (fun pn =>
         if A.pi / 2 ≤ specPolar A pn.2 ∧ specVisible env A cfg pn.1 pn.2
         then some pn.1 else none),
       (pts.zip nmls).filterMap (fun pn =>
         if A.pi / 2 ≤ specPolar A pn.2 ∧ specVisible env A cfg pn.1 pn.2
         then some (specCorrected A pn.2) else none),
       (pts.zip nmls).filterMap (fun pn =>
         if A.pi / 2 ≤ specPolar A pn.2 ∧ ¬ specVisible env A cfg pn.1 pn.2
         then some pn.1 else none)) := by
  rw [filterLoop, filterFold_append env A cfg pts nmls ([], [], []) hlen]
  simp

/-- C7 witness: the characterization applied to two points — one on an
underside with normal `(0,0,-1)` (kept, with the corrected normal), one on
an upward face with normal `(0,0,1)` (discarded entirely) — under an
interrogator that never hits. -/
theorem c7_witness :
    filterLoop (envConst none)
      (⟨Real.sqrt, Real.sin, Real.cos, Real.arccos, fun _ _ => 0,
        Real.pi⟩ : AMath ℝ) (cfgStd 0)
      [⟨0, 0, 10⟩, ⟨5, 5, 5⟩] [⟨0, 0, -1⟩, ⟨0, 0, 1⟩] =
    ([⟨0, 0, 10⟩], [⟨0, 0, -1⟩], []) := by
  have hpi := Real.pi_pos
  rw [c7_filter (envConst none)
    (⟨Real.sqrt, Real.sin, Real.cos, Real.arccos, fun _ _ => 0,
      Real.pi⟩ : AMath ℝ) (cfgStd 0)
    [⟨0, 0, 10⟩, ⟨5, 5, 5⟩] [⟨0, 0, -1⟩, ⟨0, 0, 1⟩] rfl]
  have e1 : specPolar
      (⟨Real.sqrt, Real.sin, Real.cos, Real.arccos, fun _ _ => 0,
        Real.pi⟩ : AMath ℝ) ⟨0, 0, -1⟩ = Real.pi := by
    simp [specPolar, Real.arccos_neg_one]
  have e2 : specPolar
      (⟨Real.sqrt, Real.sin, Real.cos, Real.arccos, fun _ _ => 0,
        Real.pi⟩ : AMath ℝ) ⟨0, 0, 1⟩ = 0 := by
    simp [specPolar, Real.arccos_one]
  have hv1 : specVisible (envConst none)
      (⟨Real.sqrt, Real.sin, Real.cos, Real.arccos, fun _ _ => 0,
        Real.pi⟩ : AMath ℝ) (cfgStd 0) ⟨0, 0, 10⟩ ⟨0, 0, -1⟩ := by
    simp [specVisible, envConst, rdGt]
  have hc : specCorrected
      (⟨Real.sqrt, Real.sin, Real.cos, Real.arccos, fun _ _ => 0,
        Real.pi⟩ : AMath ℝ) ⟨0, 0, -1⟩ = ⟨0, 0, -1⟩ := by
    rw [specCorrected]
    rw [e1]
    rw [max_eq_left (by linarith : 3 * Real.pi / 4 ≤ Real.pi)]
    simp [Real.sin_pi, Real.cos_pi]
  have hle : Real.pi / 2 ≤ Real.pi := by linarith
  have hnot : ¬ (Real.pi / 2 ≤ (0 : ℝ)) := by linarith
  simp [List.filterMap_cons, e1, e2, hv1, hc, hle, hnot]

/-! ## C5 : the CLASSIFY stage's non-grounded pillars -/

theorem getD_set_ne {α : Type} (l : List α) (i j : Nat) (a d : α)
    (h : i ≠ j) : (l.set i a).getD j d = l.getD j d := by
  simp [List.getD_eq_getElem?_getD, List.getElem?_set_ne h]

theorem getD_set_self {α : Type} (l : List α) (i : Nat) (a d : α)
    (h : i < l.length) : (l.set i a).getD i d = a := by
  simp [List.getD_eq_getElem?_getD, List.getElem?_set_self, h]

theorem getD_mem {α : Type} (l : List α) (k : Nat) (d : α)
    (h : k < l.length) : l.getD k d ∈ l := by
  rw [List.getD_eq_getElem?_getD, List.getElem?_eq_getElem h]
  simp

theorem getD_append_right {α : Type} (l1 l2 : List α) (k : Nat) (d : α) :
    (l1 ++ l2).getD (l1.length + k) d = l2.getD k d := by
  simp [List.getD_eq_getElem?_getD, List.getElem?_append_right]

theorem getD_map_lt {α β : Type} (l : List α) (f : α → β) (k : Nat)
    (d : β) (d2 : α) (h : k < l.length) : (l.map f).getD k d = f (l.getD k d2) := by
  simp [List.getD_eq_getElem?_getD, List.getElem?_eq_getElem, h, List.getElem?_map]

theorem getD_range (n i : Nat) (h : i < n) : (List.range n).getD i 0 = i := by
  simp [List.getD_eq_getElem?_getD, List.getElem?_range, h]

theorem classifyScanFold (env : Env K) (r : Impl K) :
    ∀ (l : List Nat) (acc : List Nat × List Nat × List (RayDist K)),
      l.foldl (classifyScanStep env r) acc =
        (acc.1 ++ l.filter (fun i =>
           (env.intersect ((r.heads.getD i junkHead).junction_point)
             ⟨0, 0, -1⟩).isNone),
         acc.2.1 ++ l.filter (fun i =>
           (env.intersect ((r.heads.getD i junkHead).junction_point)
             ⟨0, 0, -1⟩).isSome),
         acc.2.2 ++ l.map (fun i =>
           env.intersect ((r.heads.getD i junkHead).junction_point)
             ⟨0, 0, -1⟩)) := by
  intro l
  induction l with
  | nil => intro acc; simp
  | cons i l ih =>
    intro acc
    rw [List.foldl_cons, ih]
    rcases hi : env.intersect ((r.heads.getD i junkHead).junction_point)
      ⟨0, 0, -1⟩ with _ | v <;>
      (simp only [classifyScanStep, hi]
       simp [List.filter_cons, List.map_cons, hi,
         -List.getD_eq_getElem?_getD])

/-- The classification scan characterized: grounded indices are those whose
downward ray misses, non-grounded those whose ray hits, and the recorded
heights are the ray answers in index order. -/
theorem classifyScan_eq (env : Env K) (head_pos : List (V3 K)) (r : Impl K) :
    classifyScan env head_pos r =
      ((List.range head_pos.length).filter (fun i =>
         (env.intersect ((r.heads.getD i junkHead).junction_point)
           ⟨0, 0, -1⟩).isNone),
       (List.range head_pos.length).filter (fun i =>
         (env.intersect ((r.heads.getD i junkHead).junction_point)
           ⟨0, 0, -1⟩).isSome),
       (List.range head_pos.length).map (fun i =>
         env.intersect ((r.heads.getD i junkHead).junction_point)
           ⟨0, 0, -1⟩)) := by
  rw [classifyScan, classifyScanFold]
  simp

theorem classifyStep_eq (env : Env K) (A : AMath K) (cfg : SupportConfig K)
    (gndheight : List (RayDist K)) (r : Impl K) (idx : Nat)
    (h : idx < r.heads.length) :
    classifyStep env A cfg gndheight r idx =
      { r with
        heads := r.heads.set idx (classifyHeadUpd env A (r.heads.getD idx junkHead))
        pillars := r.pillars ++ [classifyExpPillar env A cfg gndheight
          (r.heads.getD idx junkHead) idx] } := by
  have hh : (r.modifyHead idx (classifyHeadUpd env A)).heads.getD idx junkHead =
      classifyHeadUpd env A (r.heads.getD idx junkHead) := by
    rw [Impl.modifyHead]
    exact getD_set_self _ _ _ _ h
  rw [classifyStep, classifyExpPillar, hh]
  rfl

theorem classifyFold (env : Env K) (A : AMath K) (cfg : SupportConfig K)
    (gndheight : List (RayDist K)) :
    ∀ (nog : List Nat) (r : Impl K), nog.Nodup →
      (∀ i ∈ nog, i < r.heads.length) →
      ((nog.foldl (classifyStep env A cfg gndheight) r).pillars =
        r.pillars ++ nog.map (fun idx =>
          classifyExpPillar env A cfg gndheight (r.heads.getD idx junkHead) idx)) ∧
      (∀ j, j ∉ nog →
        (nog.foldl (classifyStep env A cfg gndheight) r).heads.getD j junkHead =
          r.heads.getD j junkHead) ∧
      (∀ j, j ∈ nog →
        (nog.foldl (classifyStep env A cfg gndheight) r).heads.getD j junkHead =
          classifyHeadUpd env A (r.heads.getD j junkHead)) ∧
      (nog.foldl (classifyStep env A cfg gndheight) r).heads.length =
        r.heads.length := by
  intro nog
  induction nog with
  | nil => intro r _ _; simp
  | cons idx nog ih =>
    intro r hnd hb
    have hidx : idx < r.heads.length := hb idx (by simp)
    have hnd2 : nog.Nodup := (List.nodup_cons.mp hnd).2
    have hidxnog : idx ∉ nog := (List.nodup_cons.mp hnd).1
    rw [List.foldl_cons, classifyStep_eq env A cfg gndheight r idx hidx]
    set r1 : Impl K := { r with
      heads := r.heads.set idx (classifyHeadUpd env A (r.heads.getD idx junkHead))
      pillars := r.pillars ++ [classifyExpPillar env A cfg gndheight
        (r.heads.getD idx junkHead) idx] } with hr1
    have hlen1 : r1.heads.length = r.heads.length := by
      rw [hr1]; simp
    have hb1 : ∀ i ∈ nog, i < r1.heads.length := by
      intro i hi; rw [hlen1]; exact hb i (by simp [hi])
    obtain ⟨ihp, ihout, ihin, ihlen⟩ := ih r1 hnd2 hb1
    have hgd : ∀ j, j ≠ idx → r1.heads.getD j junkHead = r.heads.getD j junkHead := by
      intro j hj
      rw [hr1]
      exact getD_set_ne _ _ _ _ _ (fun h => hj h.symm)
    refine ⟨?_, ?_, ?_, ?_⟩
    · rw [ihp, hr1]
      simp only [List.map_cons, List.append_assoc, List.singleton_append]
      have hmap : List.map (fun k => classifyExpPillar env A cfg gndheight
          ((r.heads.set idx
            (classifyHeadUpd env A (r.heads.getD idx junkHead))).getD k
            junkHead) k) nog =
          List.map (fun k => classifyExpPillar env A cfg gndheight
            (r.heads.getD k junkHead) k) nog := by
        apply List.map_congr_left
        intro k hk
        have hne : k ≠ idx := fun h => hidxnog (h ▸ hk)
        rw [getD_set_ne _ _ _ _ _ (fun h => hne h.symm)]
      rw [hmap]
    · intro j hj
      have hj1 : j ∉ nog := fun h => hj (by simp [h])
      have hj2 : j ≠ idx := fun h => hj (by simp [h])
      rw [ihout j hj1, hgd j hj2]
    · intro j hj
      rcases List.mem_cons.mp hj with h | h
      · subst h
        rw [ihout j hidxnog, hr1]
        exact getD_set_self _ _ _ _ hidx
      · rw [ihin j h, hgd j (fun he => hidxnog (he ▸ h))]
    · rw [ihlen, hlen1]

/-- C5 (amended): for every non-grounded head, whose downward ray from its
junction point hits the mesh at finite distance `t`, the CLASSIFY stage
transforms the head and adds a tail, and constructs a pillar whose endpoint
lies exactly `t - (2·r_pin + width + r_back)` below the head's junction
point, i.e. `endpoint.z = junction.z - t + (2·r_pin + width + r_back)`
(the code's `fullwidth() - r_back`), with a small inverted pinhead anchored
`t + r_pin` below the junction point, whose mesh overwrites the pillar's
base, as the terminator where the pillar meets the object. -/
theorem classifyExpPillar_endpoint (env : Env K) (A : AMath K)
    (cfg : SupportConfig K) (gndheight : List (RayDist K)) (h0 : Head K)
    (idx : Nat) :
    (classifyExpPillar env A cfg gndheight h0 idx).endpoint =
      ⟨h0.junction_point.x, h0.junction_point.y,
       h0.junction_point.z - (gndheight.getD idx none).getD 0 +
         (h0.fullwidth - h0.r_back_mm)⟩ := rfl

theorem classifyExpPillar_base (env : Env K) (A : AMath K)
    (cfg : SupportConfig K) (gndheight : List (RayDist K)) (h0 : Head K)
    (idx : Nat) :
    (classifyExpPillar env A cfg gndheight h0 idx).base =
      ((mkHead A cfg.head_back_radius_mm cfg.head_front_radius_mm
          cfg.head_width_mm ⟨0, 0, 1⟩
          ⟨h0.junction_point.x, h0.junction_point.y,
           h0.junction_point.z - (gndheight.getD idx none).getD 0 -
             h0.r_pin_mm⟩ 45).transform
        (env.rot ⟨0, 0, -1⟩ ⟨0, 0, 1⟩)).mesh := rfl

/-- C5 (amended): for every non-grounded head, whose downward ray from its
junction point hits the mesh at finite distance `t`, the CLASSIFY stage
transforms the head and adds a tail, and constructs a pillar whose endpoint
lies exactly `t - (2·r_pin + width + r_back)` below the head's junction
point, i.e. `endpoint.z = junction.z - t + (2·r_pin + width + r_back)`
(the code's `fullwidth() - r_back`), with a small inverted pinhead anchored
`t + r_pin` below the junction point, whose mesh overwrites the pillar's
base, as the terminator where the pillar meets the object. -/
theorem c5_amended (env : Env K) (A : AMath K) (cfg : SupportConfig K)
    (head_pos : List (V3 K)) (r0 : Impl K)
    (hlen : r0.heads.length = head_pos.length) (k : Nat)
    (hk : k < (classifyfn env A cfg head_pos r0).2.1.length) :
    (env.intersect ((r0.heads.getD
        ((classifyfn env A cfg head_pos r0).2.1.getD k 0)
        junkHead).junction_point) ⟨0, 0, -1⟩).isSome = true ∧
    ((classifyfn env A cfg head_pos r0).2.2.2.2.pillars.getD
        (r0.pillars.length + k) junkPillar).endpoint =
      (let h0 := r0.heads.getD
        ((classifyfn env A cfg head_pos r0).2.1.getD k 0) junkHead
       let t := (env.intersect h0.junction_point ⟨0, 0, -1⟩).getD 0
       ⟨h0.junction_point.x, h0.junction_point.y,
        h0.junction_point.z - t +
          (2 * h0.r_pin_mm + h0.width_mm + h0.r_back_mm)⟩) ∧
    ((classifyfn env A cfg head_pos r0).2.2.2.2.pillars.getD
        (r0.pillars.length + k) junkPillar).base =
      (let h0 := r0.heads.getD
        ((classifyfn env A cfg head_pos r0).2.1.getD k 0) junkHead
       let t := (env.intersect h0.junction_point ⟨0, 0, -1⟩).getD 0
       ((mkHead A cfg.head_back_radius_mm cfg.head_front_radius_mm
          cfg.head_width_mm ⟨0, 0, 1⟩
          ⟨h0.junction_point.x, h0.junction_point.y,
           h0.junction_point.z - t - h0.r_pin_mm⟩ 45).transform
         (env.rot ⟨0, 0, -1⟩ ⟨0, 0, 1⟩)).mesh) ∧
    (classifyfn env A cfg head_pos r0).2.2.2.2.heads.getD
        ((classifyfn env A cfg head_pos r0).2.1.getD k 0) junkHead =
      classifyHeadUpd env A (r0.heads.getD
        ((classifyfn env A cfg head_pos r0).2.1.getD k 0) junkHead) := by
  set nogL := (List.range head_pos.length).filter (fun i =>
    (env.intersect ((r0.heads.getD i junkHead).junction_point)
      ⟨0, 0, -1⟩).isSome) with hnogL
  set ghL := (List.range head_pos.length).map (fun i =>
    env.intersect ((r0.heads.getD i junkHead).junction_point)
      ⟨0, 0, -1⟩) with hghL
  have hnog : (classifyfn env A cfg head_pos r0).2.1 = nogL := by
    show (classifyScan env head_pos r0).2.1 = nogL
    rw [classifyScan_eq]
  have hout : (classifyfn env A cfg head_pos r0).2.2.2.2 =
      nogL.foldl (classifyStep env A cfg ghL) r0 := by
    show (classifyScan env head_pos r0).2.1.foldl
      (classifyStep env A cfg (classifyScan env head_pos r0).2.2) r0 =
      nogL.foldl (classifyStep env A cfg ghL) r0
    rw [classifyScan_eq]
  have hnd : nogL.Nodup := (List.nodup_range _).filter _
  have hbnd : ∀ i ∈ nogL, i < r0.heads.length := by
    intro i hi
    rw [hnogL] at hi
    have h2 := List.mem_of_mem_filter hi
    rw [hlen]
    exact List.mem_range.mp h2
  have hsome : ∀ i ∈ nogL,
      (env.intersect ((r0.heads.getD i junkHead).junction_point)
        ⟨0, 0, -1⟩).isSome = true := by
    intro i hi
    rw [hnogL] at hi
    exact (List.mem_filter.mp hi).2
  obtain ⟨hpiles, -, hheads, -⟩ :=
    classifyFold env A cfg ghL nogL r0 hnd hbnd
  have hk2 : k < nogL.length := by rw [← hnog]; exact hk
  have hkmem : nogL.getD k 0 ∈ nogL := getD_mem _ _ _ hk2
  have hidxeq : (classifyfn env A cfg head_pos r0).2.1.getD k 0 =
      nogL.getD k 0 := by rw [hnog]
  have hidxlt : nogL.getD k 0 < head_pos.length := by
    have := hbnd _ hkmem
    omega
  have hghval : ghL.getD (nogL.getD k 0) none =
      env.intersect ((r0.heads.getD (nogL.getD k 0) junkHead).junction_point)
        ⟨0, 0, -1⟩ := by
    rw [hghL]
    rw [getD_map_lt _ _ _ _ 0 (by simpa using hidxlt)]
    rw [getD_range _ _ hidxlt]
  refine ⟨?_, ?_, ?_, ?_⟩
  · rw [hidxeq]
    exact hsome _ hkmem
  · rw [hidxeq, hout, hpiles, getD_append_right,
      getD_map_lt _ _ _ _ 0 hk2, classifyExpPillar_endpoint, hghval]
    simp only [Head.fullwidth, V3.mk.injEq]
    refine ⟨trivial, trivial, by ring⟩
  · rw [hidxeq, hout, hpiles, getD_append_right,
      getD_map_lt _ _ _ _ 0 hk2, classifyExpPillar_base, hghval]
  · rw [hidxeq, hout]
    exact hheads _ hkmem

/-- On the one-head C5 scenario every downward ray hits at `t = 2`, so the
scan grounds nothing: `gndidx = []`, `nogndidx = [0]`, `gndheight = [2]`. -/
theorem c5_run_scan (A : AMath K) (p : V3 K) :
    classifyScan (envConst (some 2)) [p] (headsAt A [p]) =
      ([], [0], [some 2]) := by
  rw [classifyScan_eq]
  simp [envConst, List.range_succ]

/-- C5, counterexample to the frozen text: one standard head
(`r_pin = 1/2, width = 2, r_back = 1`) at `(0, 0, 10)`, downward ray hit at
`t = 2`. The junction point is `(0, 0, 6)`; the code puts the pillar
endpoint at `z = 6 - 2 + (2·r_pin + width + r_back) = 8`, not at the
claimed `z = junction.z - (t - r_pin) = 6 - (2 - 1/2) = 9/2`. -/
theorem c5_counterexample :
    ((classifyfn (envConst (some 2))
        (⟨Real.sqrt, Real.sin, Real.cos, Real.arccos, fun _ _ => 0,
          Real.pi⟩ : AMath ℝ) (cfgStd 0) [⟨0, 0, 10⟩]
        (headsAt ⟨Real.sqrt, Real.sin, Real.cos, Real.arccos, fun _ _ => 0,
          Real.pi⟩ [⟨0, 0, 10⟩])).2.2.2.2.pillars.getD 0
        junkPillar).endpoint = (⟨0, 0, 8⟩ : V3 ℝ) ∧
    ((classifyfn (envConst (some 2))
        (⟨Real.sqrt, Real.sin, Real.cos, Real.arccos, fun _ _ => 0,
          Real.pi⟩ : AMath ℝ) (cfgStd 0) [⟨0, 0, 10⟩]
        (headsAt ⟨Real.sqrt, Real.sin, Real.cos, Real.arccos, fun _ _ => 0,
          Real.pi⟩ [⟨0, 0, 10⟩])).2.2.2.2.pillars.getD 0
        junkPillar).endpoint ≠ (⟨0, 0, 6 - (2 - 1 / 2)⟩ : V3 ℝ) := by
  have key : ((classifyfn (envConst (some 2))
      (⟨Real.sqrt, Real.sin, Real.cos, Real.arccos, fun _ _ => 0,
        Real.pi⟩ : AMath ℝ) (cfgStd 0) [⟨0, 0, 10⟩]
      (headsAt ⟨Real.sqrt, Real.sin, Real.cos, Real.arccos, fun _ _ => 0,
        Real.pi⟩ [⟨0, 0, 10⟩])).2.2.2.2.pillars.getD 0
      junkPillar).endpoint = (⟨0, 0, 8⟩ : V3 ℝ) := by
    have hout : (classifyfn (envConst (some 2))
        (⟨Real.sqrt, Real.sin, Real.cos, Real.arccos, fun _ _ => 0,
          Real.pi⟩ : AMath ℝ) (cfgStd 0) [⟨0, 0, 10⟩]
        (headsAt ⟨Real.sqrt, Real.sin, Real.cos, Real.arccos, fun _ _ => 0,
          Real.pi⟩ [⟨0, 0, 10⟩])).2.2.2.2 =
        List.foldl (classifyStep (envConst (some 2))
          (⟨Real.sqrt, Real.sin, Real.cos, Real.arccos, fun _ _ => 0,
            Real.pi⟩ : AMath ℝ) (cfgStd 0) [some 2])
          (headsAt ⟨Real.sqrt, Real.sin, Real.cos, Real.arccos, fun _ _ => 0,
            Real.pi⟩ [⟨0, 0, 10⟩]) [0] := by
      show (classifyScan (envConst (some 2)) [⟨0, 0, 10⟩]
          (headsAt ⟨Real.sqrt, Real.sin, Real.cos, Real.arccos, fun _ _ => 0,
            Real.pi⟩ [⟨0, 0, 10⟩])).2.1.foldl
          (classifyStep (envConst (some 2))
            (⟨Real.sqrt, Real.sin, Real.cos, Real.arccos, fun _ _ => 0,
              Real.pi⟩ : AMath ℝ) (cfgStd 0)
            (classifyScan (envConst (some 2)) [⟨0, 0, 10⟩]
              (headsAt ⟨Real.sqrt, Real.sin, Real.cos, Real.arccos,
                fun _ _ => 0, Real.pi⟩ [⟨0, 0, 10⟩])).2.2)
          (headsAt ⟨Real.sqrt, Real.sin, Real.cos, Real.arccos, fun _ _ => 0,
            Real.pi⟩ [⟨0, 0, 10⟩]) = _
      rw [c5_run_scan]
    rw [hout, List.foldl_cons, List.foldl_nil,
      classifyStep_eq _ _ _ _ _ 0 (by simp [headsAt])]
    show (classifyExpPillar (envConst (some 2))
        (⟨Real.sqrt, Real.sin, Real.cos, Real.arccos, fun _ _ => 0,
          Real.pi⟩ : AMath ℝ) (cfgStd 0) [some 2]
        ((headsAt ⟨Real.sqrt, Real.sin, Real.cos, Real.arccos, fun _ _ => 0,
          Real.pi⟩ [⟨0, 0, 10⟩]).heads.getD 0 junkHead) 0).endpoint =
      (⟨0, 0, 8⟩ : V3 ℝ)
    rw [classifyExpPillar_endpoint]
    norm_num [headsAt, mkHead, Head.junction_point, Head.fullwidth]
  refine ⟨key, ?_⟩
  rw [key]
  intro hcontra
  rw [V3.mk.injEq] at hcontra
  norm_num at hcontra

/-- C5, witness: the amended theorem applied to the one-head scenario of
the counterexample (non-grounded index list `[0]`, `k = 0`); the pillar
endpoint it determines evaluates to `(0, 0, 8)`. -/
theorem c5_witness :
    (headsAt (⟨Real.sqrt, Real.sin, Real.cos, Real.arccos, fun _ _ => 0,
        Real.pi⟩ : AMath ℝ) [⟨0, 0, 10⟩]).heads.length =
      [(⟨0, 0, 10⟩ : V3 ℝ)].length ∧
    0 < ((classifyfn (envConst (some 2))
        (⟨Real.sqrt, Real.sin, Real.cos, Real.arccos, fun _ _ => 0,
          Real.pi⟩ : AMath ℝ) (cfgStd 0) [⟨0, 0, 10⟩]
        (headsAt ⟨Real.sqrt, Real.sin, Real.cos, Real.arccos, fun _ _ => 0,
          Real.pi⟩ [⟨0, 0, 10⟩])).2.1).length ∧
    ((classifyfn (envConst (some 2))
        (⟨Real.sqrt, Real.sin, Real.cos, Real.arccos, fun _ _ => 0,
          Real.pi⟩ : AMath ℝ) (cfgStd 0) [⟨0, 0, 10⟩]
        (headsAt ⟨Real.sqrt, Real.sin, Real.cos, Real.arccos, fun _ _ => 0,
          Real.pi⟩ [⟨0, 0, 10⟩])).2.2.2.2.pillars.getD
        ((headsAt (⟨Real.sqrt, Real.sin, Real.cos, Real.arccos, fun _ _ => 0,
          Real.pi⟩ : AMath ℝ) [⟨0, 0, 10⟩]).pillars.length + 0)
        junkPillar).endpoint = (⟨0, 0, 8⟩ : V3 ℝ) := by
  have hn : (classifyfn (envConst (some 2))
      (⟨Real.sqrt, Real.sin, Real.cos, Real.arccos, fun _ _ => 0,
        Real.pi⟩ : AMath ℝ) (cfgStd 0) [⟨0, 0, 10⟩]
      (headsAt ⟨Real.sqrt, Real.sin, Real.cos, Real.arccos, fun _ _ => 0,
        Real.pi⟩ [⟨0, 0, 10⟩])).2.1 = [0] := by
    show (classifyScan (envConst (some 2)) [⟨0, 0, 10⟩]
        (headsAt ⟨Real.sqrt, Real.sin, Real.cos, Real.arccos, fun _ _ => 0,
          Real.pi⟩ [⟨0, 0, 10⟩])).2.1 = [0]
    rw [c5_run_scan]
  have hk : 0 < ((classifyfn (envConst (some 2))
      (⟨Real.sqrt, Real.sin, Real.cos, Real.arccos, fun _ _ => 0,
        Real.pi⟩ : AMath ℝ) (cfgStd 0) [⟨0, 0, 10⟩]
      (headsAt ⟨Real.sqrt, Real.sin, Real.cos, Real.arccos, fun _ _ => 0,
        Real.pi⟩ [⟨0, 0, 10⟩])).2.1).length := by
    rw [hn]
    norm_num
  refine ⟨rfl, hk, ?_⟩
  have h := (c5_amended (envConst (some 2))
    (⟨Real.sqrt, Real.sin, Real.cos, Real.arccos, fun _ _ => 0,
      Real.pi⟩ : AMath ℝ) (cfgStd 0) [⟨0, 0, 10⟩]
    (headsAt ⟨Real.sqrt, Real.sin, Real.cos, Real.arccos, fun _ _ => 0,
      Real.pi⟩ [⟨0, 0, 10⟩]) rfl 0 hk).2.1
  rw [h, hn]
  norm_num [headsAt, mkHead, Head.junction_point, envConst]

/-! ## C4 and C8 : the events of the ground-routing stage -/

/-- Preservation of a per-event property along a trace-carrying fold. -/
theorem foldl_trace_pres {σ α : Type} (tr : σ → List (REvent K))
    (P : REvent K → Prop) (f : σ → α → σ)
    (hf : ∀ s a, (∀ ev ∈ tr s, P ev) → ∀ ev ∈ tr (f s a), P ev) :
    ∀ (l : List α) (s : σ), (∀ ev ∈ tr s, P ev) →
      ∀ ev ∈ tr (l.foldl f s), P ev := by
  intro l
  induction l with
  | nil => intro s hs; exact hs
  | cons a t ih =>
    intro s hs
    rw [List.foldl_cons]
    exact ih (f s a) (hf s a hs)

/-- The inner weaving loop only adds junction events and bridge events, and
every bridge event it adds passes the clearance guard the loop re-checks
with the re-cast ray: the cast from the bridge's start toward its end is at
least the 2D distance between them. -/
theorem weaveLoop_forall (env : Env K) (A : AMath K) (cfg : SupportConfig K)
    (nEndZ pEndZ nstartz pd prad : K) (P : REvent K → Prop)
    (hjunc : ∀ id pos r, P (.junction id pos r))
    (hbr : ∀ sj ej : V3 K,
      rdGe (env.intersect sj (normalized A (ej - sj))) (dist2 A sj ej) =
        true → P (.weaveBridge sj ej prad)) :
    ∀ (fuel : Nat) (sj ej : V3 K) (chkd : RayDist K)
      (st : Impl K × List (REvent K)),
      chkd = env.intersect sj (normalized A (ej - sj)) →
      dist2 A sj ej = pd →
      (∀ ev ∈ st.2, P ev) →
      ∀ ev ∈ (weaveLoop env A cfg nEndZ pEndZ nstartz pd prad
        sj ej chkd st fuel).2, P ev := by
  intro fuel
  induction fuel with
  | zero => intro sj ej chkd st _ _ hst; exact hst
  | succ n ih =>
    intro sj ej chkd st hchkd hd hst
    simp only [weaveLoop]
    by_cases hc : nEndZ < ej.z ∧ pEndZ < sj.z
    · rw [if_pos hc]
      by_cases hg : rdGe chkd pd = true ∧ ej.z < nstartz
      · rw [if_pos hg]
        refine ih _ _ _ _ rfl ?_ ?_
        · calc dist2 A ej ⟨sj.x, sj.y, ej.z + pd * A.sin (-cfg.tilt)⟩
              = dist2 A ej sj := dist2_xy A ej sj _ rfl rfl
          _ = dist2 A sj ej := dist2_symm A ej sj
          _ = pd := hd
        · intro ev hev
          simp only [addJunctionT, List.mem_append, List.mem_singleton]
            at hev
          rcases hev with ((hev | hev) | hev) | hev
          · exact hst ev hev
          · subst hev; exact hjunc _ _ _
          · subst hev; exact hjunc _ _ _
          · subst hev
            apply hbr sj ej
            rw [hd, ← hchkd]
            exact hg.1
      · rw [if_neg hg]
        refine ih _ _ _ _ rfl ?_ hst
        calc dist2 A ej ⟨sj.x, sj.y, ej.z + pd * A.sin (-cfg.tilt)⟩
            = dist2 A ej sj := dist2_xy A ej sj _ rfl rfl
        _ = dist2 A sj ej := dist2_symm A ej sj
        _ = pd := hd
    · rw [if_neg hc]
      exact hst

/-- One ring edge adds one query event — answered exactly by filtering the
fixed spatial index within the query radius — and then only what the inner
weaving loop adds. -/
theorem edgeStep_forall (env : Env K) (A : AMath K) (cfg : SupportConfig K)
    (jindex : List (V3 K × Nat)) (fuel : Nat) (P : REvent K → Prop)
    (hjunc : ∀ id pos r, P (.junction id pos r))
    (hquery : ∀ pp d found,
      found = (jindex.filter (fun se => ltB (dist3 A pp se.1) d)).map
        (fun se => se.2) → P (.query pp d found))
    (hbr : ∀ (sj ej : V3 K) (prad : K),
      rdGe (env.intersect sj (normalized A (ej - sj))) (dist2 A sj ej) =
        true → P (.weaveBridge sj ej prad))
    (st : Impl K × List (REvent K)) (e : Nat × Nat)
    (hst : ∀ ev ∈ st.2, P ev) :
    ∀ ev ∈ (edgeStep env A cfg jindex fuel st e).2, P ev := by
  intro ev hev
  simp only [edgeStep] at hev
  refine weaveLoop_forall env A cfg _ _ _ _ _ P hjunc
    (fun sj ej h => hbr sj ej _ h) fuel _ _ _ _ rfl ?_ ?_ ev hev
  · exact dist2_xy A _ _ _ rfl rfl
  intro ev' hev'
  simp only [List.mem_append, List.mem_singleton] at hev'
  rcases hev' with hev' | hev'
  · exact hst ev' hev'
  · subst hev'
    exact hquery _ _ _ rfl

/-- The concentric-ring loop preserves any per-event property that the ring
edges preserve. -/
theorem remLoop_forall (env : Env K) (A : AMath K) (cfg : SupportConfig K)
    (jindex : List (V3 K × Nat)) (ghp : Nat → V3 K) (P : REvent K → Prop)
    (hjunc : ∀ id pos r, P (.junction id pos r))
    (hquery : ∀ pp d found,
      found = (jindex.filter (fun se => ltB (dist3 A pp se.1) d)).map
        (fun se => se.2) → P (.query pp d found))
    (hbr : ∀ (sj ej : V3 K) (prad : K),
      rdGe (env.intersect sj (normalized A (ej - sj))) (dist2 A sj ej) =
        true → P (.weaveBridge sj ej prad)) :
    ∀ (fuel : Nat) (st : Impl K × List (REvent K)) (rem : List Nat),
      (∀ ev ∈ st.2, P ev) →
      ∀ ev ∈ (remLoop env A cfg jindex ghp st rem fuel).2, P ev := by
  intro fuel
  induction fuel with
  | zero => intro st rem hst; exact hst
  | succ n ih =>
    intro st rem hst
    simp only [remLoop]
    by_cases he : rem.isEmpty = true
    · rw [if_pos he]
      exact hst
    · rw [if_neg he]
      apply ih
      exact foldl_trace_pres Prod.snd P (edgeStep env A cfg jindex n)
        (fun s a hs => edgeStep_forall env A cfg jindex n P hjunc hquery hbr
          s a hs) _ st hst

/-- A side head's link adds junction events and one side-bridge event (or
nothing when it gets its own pillar); no ray is cast for the bridge. -/
theorem sideHeadStep_forall (env : Env K) (A : AMath K)
    (cfg : SupportConfig K) (gndidx : List Nat) (jh : V3 K)
    (P : REvent K → Prop)
    (hjunc : ∀ id pos r, P (.junction id pos r))
    (hside : ∀ src dst r, P (.sideBridge src dst r))
    (st : Impl K × List (REvent K)) (c : Nat)
    (hst : ∀ ev ∈ st.2, P ev) :
    ∀ ev ∈ (sideHeadStep env A cfg gndidx jh st c).2, P ev := by
  intro ev hev
  simp only [sideHeadStep, addJunctionT] at hev
  split at hev
  · simp only [List.mem_append, List.mem_singleton] at hev
    rcases hev with ((hev | hev) | hev) | hev
    · exact hst ev hev
    · subst hev; exact hjunc _ _ _
    · subst hev; exact hjunc _ _ _
    · subst hev; exact hside _ _ _
  · exact hst ev hev

/-- A grounded cluster's processing adds only junction and side-bridge
events. -/
theorem sideCluster_forall (env : Env K) (A : AMath K)
    (cfg : SupportConfig K) (gndidx : List Nat) (ghp : Nat → V3 K)
    (P : REvent K → Prop)
    (hjunc : ∀ id pos r, P (.junction id pos r))
    (hside : ∀ src dst r, P (.sideBridge src dst r))
    (st : Impl K × List (REvent K) × List Nat) (cl : List Nat)
    (hst : ∀ ev ∈ st.2.1, P ev) :
    ∀ ev ∈ (sideCluster env A cfg gndidx ghp st cl).2.1, P ev := by
  intro ev hev
  simp only [sideCluster] at hev
  exact foldl_trace_pres Prod.snd P (sideHeadStep env A cfg gndidx _)
    (fun s a hs => sideHeadStep_forall env A cfg gndidx _ P hjunc hside
      s a hs) _ _ hst ev hev

/-- C4 (amended): every ring-weaving bridge created during ROUTING_GROUND
satisfies the clearance property — the ray cast from its start point toward
its end point does not intersect the mesh at a distance smaller than the 2D
distance between the two points — because the weaving loop re-casts that
ray and checks it against the pillar distance before every bridge; the
side-head bridges carry no such guarantee (no ray is cast for them, see the
counterexample). -/
theorem c4_amended (env : Env K) (A : AMath K) (cfg : SupportConfig K)
    (gnd_clusters : List (List Nat)) (gndidx : List Nat)
    (gnd_head_pt : Nat → V3 K) (result : Impl K) (fuel : Nat) :
    (routing_ground_fn env A cfg gnd_clusters gndidx gnd_head_pt result
      fuel).2.Forall (weaveEvClear env A) := by
  rw [List.forall_iff_forall_mem]
  intro ev hev
  simp only [routing_ground_fn] at hev
  refine remLoop_forall env A cfg _ gnd_head_pt (weaveEvClear env A)
    ?_ ?_ ?_ fuel _ _ ?_ ev hev
  · intro id pos r src dst rr h
    exact absurd h (by simp)
  · intro pp d found _ src dst rr h
    exact absurd h (by simp)
  · intro sj ej prad hge src dst rr h
    injection h with h1 h2 h3
    subst h1; subst h2
    exact rdGe_not_rdLt hge
  · exact foldl_trace_pres (fun s => s.2.1) (weaveEvClear env A)
      (sideCluster env A cfg gndidx gnd_head_pt)
      (fun s a hs => sideCluster_forall env A cfg gndidx gnd_head_pt
        (weaveEvClear env A)
        (fun id pos r src dst rr h => absurd h (by simp))
        (fun src dst r src' dst' rr h => absurd h (by simp)) s a hs)
      gnd_clusters (result, [], []) (fun ev hev => absurd hev (by simp))

/-- C8 (amended): the junction spatial index is filled once — from the
junctions existing when the per-cluster phase ends — and never updated
during weaving, so every ring-edge query returns exactly the members of
that fixed pre-weaving index within the query radius; junctions created by
the weaving itself are invisible to every later query (see the
counterexample). -/
theorem c8_amended (env : Env K) (A : AMath K) (cfg : SupportConfig K)
    (gnd_clusters : List (List Nat)) (gndidx : List Nat)
    (gnd_head_pt : Nat → V3 K) (result : Impl K) (fuel : Nat) :
    (routing_ground_fn env A cfg gnd_clusters gndidx gnd_head_pt result
      fuel).2.Forall
      (queryFromIndex A (buildJIndex
        (gnd_clusters.foldl (sideCluster env A cfg gndidx gnd_head_pt)
          (result, [], [])).1)) := by
  rw [List.forall_iff_forall_mem]
  intro ev hev
  simp only [routing_ground_fn] at hev
  refine remLoop_forall env A cfg _ gnd_head_pt
    (queryFromIndex A (buildJIndex
      (gnd_clusters.foldl (sideCluster env A cfg gndidx gnd_head_pt)
        (result, [], [])).1)) ?_ ?_ ?_ fuel _ _ ?_ ev hev
  · intro id pos r pp d found h
    exact absurd h (by simp)
  · intro pp d found hf pp' d' found' h
    injection h with h1 h2 h3
    subst h1; subst h2; subst h3
    exact hf
  · intro sj ej prad _ pp d found h
    exact absurd h (by simp)
  · exact foldl_trace_pres (fun s => s.2.1)
      (queryFromIndex A (buildJIndex
        (gnd_clusters.foldl (sideCluster env A cfg gndidx gnd_head_pt)
          (result, [], [])).1))
      (sideCluster env A cfg gndidx gnd_head_pt)
      (fun s a hs => sideCluster_forall env A cfg gndidx gnd_head_pt
        (queryFromIndex A (buildJIndex
          (gnd_clusters.foldl (sideCluster env A cfg gndidx gnd_head_pt)
            (result, [], [])).1))
        (fun id pos r pp d found h => absurd h (by simp))
        (fun src dst r pp d found h => absurd h (by simp)) s a hs)
      gnd_clusters (result, [], []) (fun ev hev => absurd hev (by simp))

/-! Projection lemmas used to evaluate the concrete routing runs: the
mesh-building parts of the constructors stay folded, only the geometric
fields are read off. -/

@[simp] theorem transform_tr (rot : V3 K → V3 K) (h : Head K) :
    (h.transform rot).tr = h.tr := rfl

@[simp] theorem transform_dir (rot : V3 K → V3 K) (h : Head K) :
    (h.transform rot).dir = h.dir := rfl

@[simp] theorem transform_r_back (rot : V3 K → V3 K) (h : Head K) :
    (h.transform rot).r_back_mm = h.r_back_mm := rfl

@[simp] theorem transform_r_pin (rot : V3 K → V3 K) (h : Head K) :
    (h.transform rot).r_pin_mm = h.r_pin_mm := rfl

@[simp] theorem transform_width (rot : V3 K → V3 K) (h : Head K) :
    (h.transform rot).width_mm = h.width_mm := rfl

@[simp] theorem transform_steps (rot : V3 K → V3 K) (h : Head K) :
    (h.transform rot).steps = h.steps := rfl

@[simp] theorem add_tail_tr (A : AMath K) (h : Head K) :
    (h.add_tail A).tr = h.tr := rfl

@[simp] theorem add_tail_dir (A : AMath K) (h : Head K) :
    (h.add_tail A).dir = h.dir := rfl

@[simp] theorem add_tail_r_back (A : AMath K) (h : Head K) :
    (h.add_tail A).r_back_mm = h.r_back_mm := rfl

@[simp] theorem add_tail_r_pin (A : AMath K) (h : Head K) :
    (h.add_tail A).r_pin_mm = h.r_pin_mm := rfl

@[simp] theorem add_tail_width (A : AMath K) (h : Head K) :
    (h.add_tail A).width_mm = h.width_mm := rfl

@[simp] theorem add_tail_steps (A : AMath K) (h : Head K) :
    (h.add_tail A).steps = h.steps := rfl

@[simp] theorem transform_junction_point (rot : V3 K → V3 K) (h : Head K) :
    (h.transform rot).junction_point = h.junction_point := rfl

@[simp] theorem add_tail_junction_point (A : AMath K) (h : Head K) :
    (h.add_tail A).junction_point = h.junction_point := rfl

@[simp] theorem transform_fullwidth (rot : V3 K → V3 K) (h : Head K) :
    (h.transform rot).fullwidth = h.fullwidth := rfl

@[simp] theorem add_tail_fullwidth (A : AMath K) (h : Head K) :
    (h.add_tail A).fullwidth = h.fullwidth := rfl

@[simp] theorem transform_rpr (rot : V3 K → V3 K) (h : Head K) (r : K) :
    (h.transform rot).request_pillar_radius r =
      h.request_pillar_radius r := rfl

@[simp] theorem add_tail_rpr (A : AMath K) (h : Head K) (r : K) :
    (h.add_tail A).request_pillar_radius r = h.request_pillar_radius r := rfl

@[simp] theorem mkPillar_endpoint (h : Head K) (e : V3 K) (r : K) :
    (mkPillar h e r).endpoint = e := rfl

@[simp] theorem mkPillar_r (h : Head K) (e : V3 K) (r : K) :
    (mkPillar h e r).r = h.request_pillar_radius r := rfl

@[simp] theorem mkPillar_headref (h : Head K) (e : V3 K) (r : K) :
    (mkPillar h e r).headref = h := rfl

@[simp] theorem add_base_endpoint (A : AMath K) (p : Pillar K) (hh r : K) :
    (p.add_base A hh r).endpoint = p.endpoint := by
  unfold Pillar.add_base
  split <;> rfl

@[simp] theorem add_base_r (A : AMath K) (p : Pillar K) (hh r : K) :
    (p.add_base A hh r).r = p.r := by
  unfold Pillar.add_base
  split <;> rfl

@[simp] theorem add_base_headref (A : AMath K) (p : Pillar K) (hh r : K) :
    (p.add_base A hh r).headref = p.headref := by
  unfold Pillar.add_base
  split <;> rfl

/-- The event trace of the C4 scenario: one grounded cluster of two heads
at `(0, 0, 10)` and `(3, 0, 10)`, tilt `0`, every ray answered at `t = 1`,
no weaving fuel. The side head is linked to the main pillar through the
junctions `(3, 0, 1)` and `(0, 0, 1)` and a bridge between them — with no
ray ever cast for that bridge. -/
theorem c4_run_trace :
    (routing_ground_fn (envConst (some 1))
      (⟨Real.sqrt, Real.sin, Real.cos, Real.arccos, fun _ _ => 0,
        Real.pi⟩ : AMath ℝ) (cfgStd 0) [[0, 1]] [0, 1]
      (fun i => [⟨0, 0, 10⟩, ⟨3, 0, 10⟩].getD i ⟨0, 0, 0⟩)
      (headsAt ⟨Real.sqrt, Real.sin, Real.cos, Real.arccos, fun _ _ => 0,
        Real.pi⟩ [⟨0, 0, 10⟩, ⟨3, 0, 10⟩]) 0).2 =
    [.junction 0 ⟨3, 0, 1⟩ 1, .junction 1 ⟨0, 0, 1⟩ 1,
     .sideBridge ⟨3, 0, 1⟩ ⟨0, 0, 1⟩ (3 / 10)] := by
  show (([[0, 1]].foldl (sideCluster (envConst (some 1))
      (⟨Real.sqrt, Real.sin, Real.cos, Real.arccos, fun _ _ => 0,
        Real.pi⟩ : AMath ℝ) (cfgStd 0) [0, 1]
      (fun i => [⟨0, 0, 10⟩, ⟨3, 0, 10⟩].getD i ⟨0, 0, 0⟩))
      (headsAt ⟨Real.sqrt, Real.sin, Real.cos, Real.arccos, fun _ _ => 0,
        Real.pi⟩ [⟨0, 0, 10⟩, ⟨3, 0, 10⟩], [], [])).2.1) = _
  rw [List.foldl_cons, List.foldl_nil]
  norm_num [sideCluster, sideHeadStep, addJunctionT, cluster_centroid,
    Impl.modifyHead, Impl.addPillar, Impl.addJunction, Impl.addBridge,
    headsAt, envConst, cfgStd, mkHead, Head.junction_point, Head.fullwidth,
    Head.request_pillar_radius, Real.sin_zero]

/-- C4, counterexample to the frozen text: in the run of `c4_run_trace` the
side bridge from `(3, 0, 1)` to `(0, 0, 1)` is created although the ray
from its start toward its end hits the mesh at `t = 1`, closer than the 2D
endpoint distance `3` — the side-link code casts no ray at all. -/
theorem c4_counterexample :
    ¬ BridgeCastClear (envConst (some 1))
      (⟨Real.sqrt, Real.sin, Real.cos, Real.arccos, fun _ _ => 0,
        Real.pi⟩ : AMath ℝ)
      (routing_ground_fn (envConst (some 1))
        (⟨Real.sqrt, Real.sin, Real.cos, Real.arccos, fun _ _ => 0,
          Real.pi⟩ : AMath ℝ) (cfgStd 0) [[0, 1]] [0, 1]
        (fun i => [⟨0, 0, 10⟩, ⟨3, 0, 10⟩].getD i ⟨0, 0, 0⟩)
        (headsAt ⟨Real.sqrt, Real.sin, Real.cos, Real.arccos, fun _ _ => 0,
          Real.pi⟩ [⟨0, 0, 10⟩, ⟨3, 0, 10⟩]) 0).2 := by
  intro h
  have hmem : REvent.sideBridge (⟨3, 0, 1⟩ : V3 ℝ) ⟨0, 0, 1⟩ (3 / 10) ∈
      (routing_ground_fn (envConst (some 1))
        (⟨Real.sqrt, Real.sin, Real.cos, Real.arccos, fun _ _ => 0,
          Real.pi⟩ : AMath ℝ) (cfgStd 0) [[0, 1]] [0, 1]
        (fun i => [⟨0, 0, 10⟩, ⟨3, 0, 10⟩].getD i ⟨0, 0, 0⟩)
        (headsAt ⟨Real.sqrt, Real.sin, Real.cos, Real.arccos, fun _ _ => 0,
          Real.pi⟩ [⟨0, 0, 10⟩, ⟨3, 0, 10⟩]) 0).2 := by
    rw [c4_run_trace]
    exact List.mem_cons_of_mem _ (List.mem_cons_of_mem _
      (List.mem_cons_self _ _))
  have hb := h ⟨3, 0, 1⟩ ⟨0, 0, 1⟩ (3 / 10) (Or.inl hmem)
  have hd : dist2 (⟨Real.sqrt, Real.sin, Real.cos, Real.arccos, fun _ _ => 0,
      Real.pi⟩ : AMath ℝ) ⟨3, 0, 1⟩ ⟨0, 0, 1⟩ = 3 := by
    show Real.sqrt (((0 : ℝ) - 3) * ((0 : ℝ) - 3) +
      ((0 : ℝ) - 0) * ((0 : ℝ) - 0)) = 3
    rw [show ((0 : ℝ) - 3) * ((0 : ℝ) - 3) + ((0 : ℝ) - 0) * ((0 : ℝ) - 0) =
      3 ^ 2 by norm_num]
    exact Real.sqrt_sq (by norm_num)
  simp only [bridgeCastOK] at hb
  rw [hd] at hb
  norm_num [envConst, rdLt] at hb

/-- The event trace of the C8 scenario: three singleton grounded clusters
at `(0, 0, 7)`, `(4, 0, 7)` and `(4, 3, 7)`, tilt `π/6`, no ray ever hits,
fuel 2. The per-cluster phase creates no junctions, so the spatial index is
empty; the ring `[0, 1, 2]` is woven edge by edge, each edge creating two
junctions and a bridge — and each query still returns `[]`. -/
theorem c8_run_trace :
    (routing_ground_fn (envConst none)
      (⟨Real.sqrt, Real.sin, Real.cos, Real.arccos, fun _ _ => 0,
        Real.pi⟩ : AMath ℝ) (cfgStd (Real.pi / 6)) [[0], [1], [2]] [0, 1, 2]
      (fun i => [⟨0, 0, 7⟩, ⟨4, 0, 7⟩, ⟨4, 3, 7⟩].getD i ⟨0, 0, 0⟩)
      (headsAt ⟨Real.sqrt, Real.sin, Real.cos, Real.arccos, fun _ _ => 0,
        Real.pi⟩ [⟨0, 0, 7⟩, ⟨4, 0, 7⟩, ⟨4, 3, 7⟩]) 2).2 =
    [.query ⟨0, 0, 0⟩ (3 / 5) [],
     .junction 0 ⟨0, 0, 3⟩ 1,
     .junction 1 ⟨4, 0, 1⟩ 1,
     .weaveBridge ⟨0, 0, 3⟩ ⟨4, 0, 1⟩ (3 / 10),
     .query ⟨4, 0, 0⟩ (3 / 5) [],
     .junction 2 ⟨4, 0, 3⟩ 1,
     .junction 3 ⟨4, 3, 3 / 2⟩ 1,
     .weaveBridge ⟨4, 0, 3⟩ ⟨4, 3, 3 / 2⟩ (3 / 10)] := by
  have hs16 : Real.sqrt 16 = 4 := by
    rw [show (16 : ℝ) = 4 ^ 2 by norm_num]
    exact Real.sqrt_sq (by norm_num)
  have hs9 : Real.sqrt 9 = 3 := by
    rw [show (9 : ℝ) = 3 ^ 2 by norm_num]
    exact Real.sqrt_sq (by norm_num)
  norm_num [routing_ground_fn, sideCluster, cluster_centroid,
    Impl.modifyHead, Impl.addPillar, Impl.addJunction, Impl.addBridge,
    headsAt, envConst, cfgStd, mkHead, Head.junction_point,
    Head.request_pillar_radius, buildJIndex, remLoop, sortNat, sortInsert,
    pts_convex_hull, hullLoop, hullNextQ, orientation, hullERR, edgeStep,
    weaveLoop, addJunctionT, rdGe, dist2, hs16, hs9, List.range_succ,
    Real.sin_neg, Real.sin_pi_div_six]

/-- C8, counterexample to the frozen text: in the run of `c8_run_trace` the
query of the second ring edge (trace position 4, centre `(4, 0, 0)`, radius
`3/5`) returns `[]`, although the junction with id `1` created by the first
edge (trace position 2) sits at `(4, 0, 1)`, whose footprint is at 2D
distance `0` from the query centre — the index was filled before weaving
and never updated. -/
theorem c8_counterexample :
    ¬ C8QuerySeesAll
      (⟨Real.sqrt, Real.sin, Real.cos, Real.arccos, fun _ _ => 0,
        Real.pi⟩ : AMath ℝ)
      (routing_ground_fn (envConst none)
        (⟨Real.sqrt, Real.sin, Real.cos, Real.arccos, fun _ _ => 0,
          Real.pi⟩ : AMath ℝ) (cfgStd (Real.pi / 6)) [[0], [1], [2]]
        [0, 1, 2]
        (fun i => [⟨0, 0, 7⟩, ⟨4, 0, 7⟩, ⟨4, 3, 7⟩].getD i ⟨0, 0, 0⟩)
        (headsAt ⟨Real.sqrt, Real.sin, Real.cos, Real.arccos, fun _ _ => 0,
          Real.pi⟩ [⟨0, 0, 7⟩, ⟨4, 0, 7⟩, ⟨4, 3, 7⟩]) 2).2 := by
  intro h
  have h4 : (routing_ground_fn (envConst none)
      (⟨Real.sqrt, Real.sin, Real.cos, Real.arccos, fun _ _ => 0,
        Real.pi⟩ : AMath ℝ) (cfgStd (Real.pi / 6)) [[0], [1], [2]]
      [0, 1, 2]
      (fun i => [⟨0, 0, 7⟩, ⟨4, 0, 7⟩, ⟨4, 3, 7⟩].getD i ⟨0, 0, 0⟩)
      (headsAt ⟨Real.sqrt, Real.sin, Real.cos, Real.arccos, fun _ _ => 0,
        Real.pi⟩ [⟨0, 0, 7⟩, ⟨4, 0, 7⟩, ⟨4, 3, 7⟩]) 2).2.get? 4 =
      some (.query ⟨4, 0, 0⟩ (3 / 5) []) := by
    rw [c8_run_trace]
    rfl
  have h2 : (routing_ground_fn (envConst none)
      (⟨Real.sqrt, Real.sin, Real.cos, Real.arccos, fun _ _ => 0,
        Real.pi⟩ : AMath ℝ) (cfgStd (Real.pi / 6)) [[0], [1], [2]]
      [0, 1, 2]
      (fun i => [⟨0, 0, 7⟩, ⟨4, 0, 7⟩, ⟨4, 3, 7⟩].getD i ⟨0, 0, 0⟩)
      (headsAt ⟨Real.sqrt, Real.sin, Real.cos, Real.arccos, fun _ _ => 0,
        Real.pi⟩ [⟨0, 0, 7⟩, ⟨4, 0, 7⟩, ⟨4, 3, 7⟩]) 2).2.get? 2 =
      some (.junction 1 ⟨4, 0, 1⟩ 1) := by
    rw [c8_run_trace]
    rfl
  have hdist : ltB (dist3 (⟨Real.sqrt, Real.sin, Real.cos, Real.arccos,
      fun _ _ => 0, Real.pi⟩ : AMath ℝ) ⟨4, 0, 0⟩ ⟨4, 0, 0⟩)
      ((3 : ℝ) / 5) = true := by
    norm_num [ltB, dist3, dot3, Real.sqrt_zero]
  exact absurd
    (h 4 ⟨4, 0, 0⟩ (3 / 5) [] h4 2 1 ⟨4, 0, 1⟩ 1 (by norm_num) h2 hdist)
    (List.not_mem_nil 1)

/-! ## C3 : cancellation does not stop publication -/

/-- C3: a run driven by `START_RESUME, START_RESUME, STOP` on a model with
one underside support point ends in `ABORT` (the user cancelled after the
PINHEADS stage ran), yet `add_sla_supports` — which discards `generate`'s
abort flag — still publishes the two volumes of the partially built tree
(the head's mesh and its tail mesh) to the host model. -/
theorem c3_eval :
    (generate envC3
      (⟨Real.sqrt, Real.sin, Real.cos, Real.arccos, fun _ _ => 0,
        Real.pi⟩ : AMath ℝ) (cfgStd 0) c3Model
      [.START_RESUME, .START_RESUME, .STOP] 0).1 = true ∧
    (addSlaSupports envC3
      (⟨Real.sqrt, Real.sin, Real.cos, Real.arccos, fun _ _ => 0,
        Real.pi⟩ : AMath ℝ) (cfgStd 0) c3Model
      [.START_RESUME, .START_RESUME, .STOP] 0).length = 2 := by
  have hpi2 : Real.pi / 2 ≤ Real.pi := by linarith [Real.pi_pos]
  have hmax : max Real.pi (3 * Real.pi / 4) = Real.pi :=
    max_eq_left (by linarith [Real.pi_pos])
  constructor <;>
    norm_num [generate, addSlaSupports, genLoop, runProgram, progressStep,
      loopCond, ordS, support_points, support_points_writes, c3Model,
      List.enum, List.enumFrom, List.replicate, filterfn, filterLoop,
      filterStep, envC3, cfgStd, pinheadfn, Impl.addHead, rdGt,
      List.range_succ, hpi2, hmax, Real.arccos_neg_one, Real.sin_pi,
      Real.cos_pi, Real.cos_zero, Real.sin_zero]

end SLA
